import Mathlib

/-!
Favorites store and asset catalog

A shallow embedding of the Go packages `internal/models`, `internal/catalog`
and `internal/store`, followed by the properties proved about them.

Modelling conventions.

* A Go `map[string]V` is a finite map `Finmap` with `String` keys: reading a
  missing key gives `none`, and two maps are equal exactly when they hold the
  same keys with the same values.
* A Go slice is a `List`.  Every slice of the store is reachable through one
  map entry only, so the in-place writes of the source (`append`, indexed
  assignment) are modelled by replacing the entry with the updated list.
* The mutexes are left out: every operation is modelled as one sequential
  step from the state before it to the state after it.
* `time.Now()` is an input of the operation that reads it.
* A Go `error` result is an `Option Error`, `none` being `nil`.  In package
  `models`, whose errors are all made by `errors.New`, it is the `Option` of
  the message.
* The order in which `range` visits the keys of a map is an input of the
  operation that iterates.
* An HTTP handler is a function from the decoded request and the state to
  the response written and the state after it.
* What the operating system gives (the environment, the outcome of opening
  and decoding a file) is an input of the operation that asks for it.
-/

namespace models

/-- A `time.Time` value, as a number of ticks. -/
abbrev Time := Nat

/-- Fields shared by every asset type (`AssetBase` in `assets.go`). -/
structure AssetBase where
  ID : String
  Name : String
  Description : String
  deriving DecidableEq, Repr

/-- A chart asset: `AssetBase` is embedded. -/
structure Chart extends AssetBase where
  ChartType : String
  DataSource : String
  deriving DecidableEq, Repr

/-- An insight asset: `AssetBase` is embedded. -/
structure Insight extends AssetBase where
  Metric : String
  Value : String
  deriving DecidableEq, Repr

/-- An audience asset: `AssetBase` is embedded; `Size` is a Go `int`. -/
structure Audience extends AssetBase where
  Segment : String
  Size : Int
  deriving DecidableEq, Repr

/-- The values of the `Asset` interface: one case per implementing type. -/
inductive Asset where
  | chart (c : Chart)
  | insight (i : Insight)
  | audience (a : Audience)
  deriving DecidableEq, Repr

/-- A user's reference to a favorited asset (`favorite.go`). -/
structure Favorite where
  AssetID : String
  Description : String
  CreatedAt : Time
  deriving DecidableEq, Repr

/-- A favorite joined with the asset found in the catalog (`favorite.go`). -/
structure FavoriteWithAsset where
  AssetID : String
  Description : String
  CreatedAt : Time
  Asset : Asset
  deriving DecidableEq, Repr

/-- The method `AssetBase.Validate`. -/
def AssetBase.Validate (a : AssetBase) : Option String :=
  if a.Name = "" then some "name is required"
  else none

/-- The method `Chart.Validate`. -/
def Chart.Validate (c : Chart) : Option String :=
  match c.toAssetBase.Validate with
  | some err => some err
  | none =>
    if c.ChartType = "" then some "chart type is required"
    else none

/-- The method `Insight.Validate`. -/
def Insight.Validate (i : Insight) : Option String :=
  match i.toAssetBase.Validate with
  | some err => some err
  | none =>
    if i.Metric = "" then some "metric is required"
    else if i.Value = "" then some "value is required"
    else none

/-- The method `Audience.Validate`. -/
def Audience.Validate (a : Audience) : Option String :=
  match a.toAssetBase.Validate with
  | some err => some err
  | none =>
    if a.Segment = "" then some "segment is required"
    else if a.Size < 0 then some "size cannot be negative"
    else none

/-- The method `GetID` of `Chart`. -/
def Chart.GetID (c : Chart) : String := c.ID

/-- The method `GetID` of `Insight`. -/
def Insight.GetID (i : Insight) : String := i.ID

/-- The method `GetID` of `Audience`. -/
def Audience.GetID (a : Audience) : String := a.ID

/-- The method `GetID` of the `Asset` interface. -/
def Asset.GetID : Asset → String
  | .chart c => c.GetID
  | .insight i => i.GetID
  | .audience a => a.GetID

/-- The method `GetName` of the `Asset` interface. -/
def Asset.GetName : Asset → String
  | .chart c => c.Name
  | .insight i => i.Name
  | .audience a => a.Name

/-- An audience of size 0, valid. -/
def sampleAudience : Audience :=
  { ID := "", Name := "Gen Z", Description := "", Segment := "18-24", Size := 0 }

/-- An audience of negative size. -/
def sampleAudienceNegative : Audience :=
  { ID := "", Name := "Gen Z", Description := "", Segment := "18-24", Size := -1 }

/-- An insight whose name, metric and value are all empty. -/
def sampleInsightEmpty : Insight :=
  { ID := "i", Name := "", Description := "", Metric := "", Value := "" }

/-- An insight with a name whose metric and value are empty. -/
def sampleInsightNamed : Insight :=
  { ID := "i", Name := "n", Description := "", Metric := "", Value := "" }

end models

namespace catalog

open models

/-- The catalog of `catalog.go`: the `assets` map, without the lock. -/
structure Catalog where
  assets : Finmap (fun _ : String => Asset)

/-- The method `AddAsset`: `c.assets[id] = asset`. -/
def Catalog.AddAsset (c : Catalog) (id : String) (asset : Asset) : Catalog :=
  { assets := c.assets.insert id asset }

/-- The method `Get`: `asset, ok := c.assets[id]`, where `some asset` stands
for `(asset, true)` and `none` for `(nil, false)`. -/
def Catalog.Get (c : Catalog) (id : String) : Option Asset :=
  c.assets.lookup id

/-- The catalog `Initialize` stores in `Global`: an empty `assets` map. -/
def Initialize : Catalog :=
  { assets := ∅ }

/-- The loop of `List`: `order` is the sequence of keys `range` visits, and
`result` grows by the asset stored under each of them. -/
def ListAssets.loop (c : Catalog) : List String → List Asset → List Asset
  | [], result => result
  | k :: rest, result =>
    match c.assets.lookup k with
    | none => ListAssets.loop c rest result
    | some asset => ListAssets.loop c rest (result ++ [asset])

/-- The method `List`, called `ListAssets` here because `List` is the type of
lists; `order` is the order in which `range c.assets` visits the keys of the
map. -/
def Catalog.ListAssets (c : Catalog) (order : List String) : List Asset :=
  ListAssets.loop c order []

/-- An order in which `range` can visit the keys of the catalog: every key
once, and nothing else. -/
def Catalog.rangeOrder (c : Catalog) (order : List String) : Prop :=
  order.Nodup ∧ order.toFinset = c.assets.keys

/-- The method `Count`: `len(c.assets)`. -/
def Catalog.Count (c : Catalog) : Nat :=
  c.assets.keys.card

/-- The local type `SeedData` of `LoadFromFile`: the decoded seed file. -/
structure SeedData where
  Charts : List Chart
  Insights : List Insight
  Audiences : List Audience

/-- The loop `for _, chart := range data.Charts { c.assets[chart.ID] = chart }`. -/
def LoadFromFile.loadCharts (c : Catalog) : List Chart → Catalog
  | [] => c
  | chart :: rest =>
    LoadFromFile.loadCharts { assets := c.assets.insert chart.ID (Asset.chart chart) } rest

/-- The loop `for _, insight := range data.Insights { c.assets[insight.ID] = insight }`. -/
def LoadFromFile.loadInsights (c : Catalog) : List Insight → Catalog
  | [] => c
  | insight :: rest =>
    LoadFromFile.loadInsights { assets := c.assets.insert insight.ID (Asset.insight insight) } rest

/-- The loop `for _, audience := range data.Audiences { c.assets[audience.ID] = audience }`. -/
def LoadFromFile.loadAudiences (c : Catalog) : List Audience → Catalog
  | [] => c
  | audience :: rest =>
    LoadFromFile.loadAudiences
      { assets := c.assets.insert audience.ID (Asset.audience audience) } rest

/-- What `os.Open` and the JSON decoder give for the seed file: no such file,
another error of `os.Open`, an error of the decoder, or the decoded data. -/
inductive SeedFile where
  | notExist
  | openError (err : String)
  | parseError (err : String)
  | decoded (data : SeedData)

/-- The method `LoadFromFile`, given what opening and decoding the file at
`path` give: the error returned (its message) and the catalog afterwards. -/
def Catalog.LoadFromFile (c : Catalog) (file : SeedFile) : Option String × Catalog :=
  match file with
  | .notExist => (none, c)
  | .openError err => (some ("failed to open catalog file: " ++ err), c)
  | .parseError err => (some ("failed to parse catalog file: " ++ err), c)
  | .decoded data =>
    (none,
      LoadFromFile.loadAudiences
        (LoadFromFile.loadInsights (LoadFromFile.loadCharts c data.Charts) data.Insights)
        data.Audiences)

/-- The seed records as one sequence of inserts, as the specification orders
them: every chart in list order, then every insight, then every audience, each
under its own `ID`. -/
def seedInserts (data : SeedData) : List (String × Asset) :=
  data.Charts.map (fun chart => (chart.ID, Asset.chart chart)) ++
    (data.Insights.map (fun insight => (insight.ID, Asset.insight insight)) ++
      data.Audiences.map (fun audience => (audience.ID, Asset.audience audience)))

/-- A sequence of `AddAsset` calls, in order. -/
def insertAll (c : Catalog) (inserts : List (String × Asset)) : Catalog :=
  inserts.foldl (fun acc p => acc.AddAsset p.1 p.2) c

/-- The invariant that every key of the catalog maps to an asset whose
`GetID()` is that key. -/
def Catalog.keyConsistent (c : Catalog) : Prop :=
  ∀ (k : String) (asset : Asset), c.Get k = some asset → asset.GetID = k

/-- One step of building the catalog: a `LoadFromFile` call, with what opening
and decoding the file give, or an `AddAsset` call. -/
inductive Setup where
  | LoadFromFile (file : SeedFile)
  | AddAsset (id : String) (asset : Asset)

/-- The catalog after one step. -/
def Setup.apply (c : Catalog) : Setup → Catalog
  | .LoadFromFile file => (c.LoadFromFile file).2
  | .AddAsset id asset => c.AddAsset id asset

/-- A step that stores assets under their own identifiers only: any
`LoadFromFile`, and an `AddAsset(id, asset)` with `id = asset.GetID()`. -/
def Setup.ownID : Setup → Prop
  | .LoadFromFile _ => True
  | .AddAsset id asset => id = asset.GetID

/-- The catalog built from `Initialize()` by a sequence of steps. -/
def build (steps : List Setup) : Catalog :=
  steps.foldl Setup.apply Initialize

/-- A chart with the identifier `x`. -/
def sampleChartX : Chart :=
  { ID := "x", Name := "Sales", Description := "", ChartType := "bar", DataSource := "" }

/-- An insight with the identifier `x`. -/
def sampleInsightX : Insight :=
  { ID := "x", Name := "Reach", Description := "", Metric := "m", Value := "v" }

/-- An audience with the identifier `x`. -/
def sampleAudienceX : Audience :=
  { ID := "x", Name := "Gen Z", Description := "", Segment := "18-24", Size := 10 }

/-- An earlier audience with the identifier `x`. -/
def sampleAudienceXEarlier : Audience :=
  { ID := "x", Name := "Old", Description := "", Segment := "all", Size := 1 }

/-- A chart with the identifier `y` and no name, which `Validate` rejects. -/
def sampleChartY : Chart :=
  { ID := "y", Name := "", Description := "", ChartType := "line", DataSource := "" }

/-- A seed file in which the identifier `x` occurs in all three lists, and twice
among the audiences. -/
def sampleSeed : SeedData :=
  { Charts := [sampleChartX, sampleChartY], Insights := [sampleInsightX],
    Audiences := [sampleAudienceXEarlier, sampleAudienceX] }

/-- The steps of a set-up: the seed file `sampleSeed` is loaded, then the chart
`sampleChartX` is inserted under its own identifier. -/
def sampleSteps : List Setup :=
  [Setup.LoadFromFile (SeedFile.decoded sampleSeed), Setup.AddAsset "x" (Asset.chart sampleChartX)]

/-- A catalog holding an asset under a key that is not its identifier. -/
def sampleCatalogOld : Catalog :=
  Initialize.AddAsset "old" (Asset.chart sampleChartY)

end catalog

namespace store

open models catalog

/-- The error values of `store.go`: the two package-level sentinels, and the
values made by `errors.New` at the place of the failure. -/
inductive Error where
  | ErrAssetNotFound
  | ErrDuplicateName
  | New (msg : String)
  deriving DecidableEq, Repr

/-- The store of `store.go`: the `users` map, without the lock. -/
structure MemoryStore where
  users : Finmap (fun _ : String => List Favorite)

/-- The constructor `NewMemoryStore`: an empty `users` map. -/
def NewMemoryStore : MemoryStore :=
  { users := ∅ }

/-- The read `s.users[userID]`: the stored slice, or the nil slice when the
key is missing. -/
def MemoryStore.favorites (s : MemoryStore) (userID : String) : List Favorite :=
  (s.users.lookup userID).getD []

/-- The loop `for i, fav := range favorites { if fav.AssetID == assetID ... }`
shared by the operations: the index `i` at which the body is entered, or
`none` when the loop runs to its end. -/
def findAsset (assetID : String) : List Favorite → Option Nat
  | [] => none
  | fav :: rest =>
    if fav.AssetID = assetID then some 0
    else (findAsset assetID rest).map (· + 1)

/-- The assignment `favorites[i].Description = desc`. -/
def setDescription (desc : String) : List Favorite → Nat → List Favorite
  | [], _ => []
  | fav :: rest, 0 => { fav with Description := desc } :: rest
  | fav :: rest, i + 1 => fav :: setDescription desc rest i

/-- The method `AddFavorite`; `now` is the value `time.Now()` returns. -/
def MemoryStore.AddFavorite (s : MemoryStore) (now : Time)
    (userID assetID description : String) : Option Error × MemoryStore :=
  match findAsset assetID (s.favorites userID) with
  | some _ => (some (Error.New "asset already favorited"), s)
  | none =>
    (none,
      { users := s.users.insert userID
          (s.favorites userID ++
            [{ AssetID := assetID, Description := description, CreatedAt := now }]) })

/-- The loop of `ListFavorites`: `result` grows by one entry for every
favorite whose asset the catalog holds. -/
def ListFavorites.loop (c : Catalog) :
    List Favorite → List FavoriteWithAsset → List FavoriteWithAsset
  | [], result => result
  | fav :: rest, result =>
    match c.Get fav.AssetID with
    | none => ListFavorites.loop c rest result
    | some asset =>
      ListFavorites.loop c rest
        (result ++
          [{ AssetID := fav.AssetID, Description := fav.Description,
             CreatedAt := fav.CreatedAt, Asset := asset }])

/-- The method `ListFavorites`, reading the catalog `c` (`catalog.Global`).
The slice returned is `some l` (`none` would be the nil slice; `make` never
gives it); the store after the call is returned as well. -/
def MemoryStore.ListFavorites (s : MemoryStore) (c : Catalog) (userID : String) :
    (Option (List FavoriteWithAsset) × Option Error) × MemoryStore :=
  let favorites := s.favorites userID
  let result : List FavoriteWithAsset := []
  ((some (ListFavorites.loop c favorites result), none), s)

/-- The method `RemoveFavorite`:
`append(favorites[:i], favorites[i+1:]...)` at the first matching index. -/
def MemoryStore.RemoveFavorite (s : MemoryStore) (userID assetID : String) :
    Option Error × MemoryStore :=
  let favorites := s.favorites userID
  match findAsset assetID favorites with
  | some i =>
    (none, { users := s.users.insert userID (favorites.take i ++ favorites.drop (i + 1)) })
  | none => (none, s)

/-- The method `EditFavoriteDescription`. -/
def MemoryStore.EditFavoriteDescription (s : MemoryStore) (userID assetID desc : String) :
    Option Error × MemoryStore :=
  let favorites := s.favorites userID
  match findAsset assetID favorites with
  | some i => (none, { users := s.users.insert userID (setDescription desc favorites i) })
  | none => (some Error.ErrAssetNotFound, s)

/-- One call on the store.  A call of `AddFavorite` carries the time it reads,
a call of `ListFavorites` the catalog it reads. -/
inductive Op where
  | add (now : Time) (userID assetID description : String)
  | remove (userID assetID : String)
  | edit (userID assetID desc : String)
  | list (c : Catalog) (userID : String)

/-- The store after one call. -/
def Op.apply (s : MemoryStore) : Op → MemoryStore
  | .add now userID assetID description => (s.AddFavorite now userID assetID description).2
  | .remove userID assetID => (s.RemoveFavorite userID assetID).2
  | .edit userID assetID desc => (s.EditFavoriteDescription userID assetID desc).2
  | .list c userID => (s.ListFavorites c userID).2

/-- The store reached from `NewMemoryStore()` by a sequence of calls. -/
def run (ops : List Op) : MemoryStore :=
  ops.foldl Op.apply NewMemoryStore

/-- The asset identifiers of a collection, in stored order. -/
def assetIDs (favorites : List Favorite) : List String :=
  favorites.map (·.AssetID)

/-- The fields an entry of `ListFavorites` copies from the stored record. -/
def record (e : FavoriteWithAsset) : Favorite :=
  { AssetID := e.AssetID, Description := e.Description, CreatedAt := e.CreatedAt }

/-- The join of one favorite with the catalog: the entry `ListFavorites`
emits for it, if any. -/
def joinOne (c : Catalog) (fav : Favorite) : Option FavoriteWithAsset :=
  (c.Get fav.AssetID).map fun asset =>
    { AssetID := fav.AssetID, Description := fav.Description,
      CreatedAt := fav.CreatedAt, Asset := asset }

/-- A store in which user `u1` holds one favorite, for asset `c1`. -/
def sampleStore : MemoryStore :=
  (NewMemoryStore.AddFavorite 5 "u1" "c1" "note").2

/-- A chart asset with identifier `c2`. -/
def sampleChart : Asset :=
  .chart { ID := "c2", Name := "Revenue", Description := "", ChartType := "bar", DataSource := "" }

/-- A catalog holding one insight, under the identifier `c3`. -/
def sampleCatalog : Catalog :=
  ({ assets := ∅ } : Catalog).AddAsset "c3"
    (.insight { ID := "c3", Name := "Reach", Description := "", Metric := "m", Value := "v" })

/-- A store in which user `u1` holds favorites for `c1`, `c2` and `c3`, in that order. -/
def sampleStore3 : MemoryStore :=
  ((sampleStore.AddFavorite 6 "u1" "c2" "second").2.AddFavorite 7 "u1" "c3" "third").2

set_option linter.dupNamespace false in
/-- The method `Error` of an error value: its message. -/
def Error.Error : store.Error → String
  | .ErrAssetNotFound => "asset not found"
  | .ErrDuplicateName => "asset with this name already exists"
  | .New msg => msg

/-- A call of one of the four methods of the `Store` interface. -/
inductive Call where
  | AddFavorite (now : Time) (userID assetID description : String)
  | ListFavorites (userID : String)
  | RemoveFavorite (userID assetID : String)
  | EditFavoriteDescription (userID assetID desc : String)

/-- The calls that write to the store: all but `ListFavorites`. -/
def Call.isMutation : Call → Bool
  | .ListFavorites _ => false
  | _ => true

/-- A call made while the package variable `catalog.Global` holds the catalog
`Global`: the slice returned (`none` for the methods that return an error
only), the error returned, and the store after the call. -/
def Call.exec (Global : Catalog) (s : MemoryStore) :
    Call → (Option (List FavoriteWithAsset) × Option Error) × MemoryStore
  | .AddFavorite now userID assetID description =>
    ((none, (s.AddFavorite now userID assetID description).1),
      (s.AddFavorite now userID assetID description).2)
  | .ListFavorites userID => s.ListFavorites Global userID
  | .RemoveFavorite userID assetID =>
    ((none, (s.RemoveFavorite userID assetID).1), (s.RemoveFavorite userID assetID).2)
  | .EditFavoriteDescription userID assetID desc =>
    ((none, (s.EditFavoriteDescription userID assetID desc).1),
      (s.EditFavoriteDescription userID assetID desc).2)

/-- The store after `AddFavorite` has been called for one user once for each
element of a list, in order; an element gives the time read, the asset
identifier and the description of its call. -/
def addAll (s : MemoryStore) (userID : String) : List (Time × String × String) → MemoryStore
  | [] => s
  | (now, assetID, description) :: rest =>
    addAll (s.AddFavorite now userID assetID description).2 userID rest

/-- The asset identifiers of the entries of a listing, in order. -/
def listedIDs (out : List FavoriteWithAsset) : List String :=
  out.map (·.AssetID)

/-- Three `AddFavorite` calls, for `c1`, `c2` and `c3`. -/
def sampleAdds : List (Time × String × String) :=
  [(1, "c1", "first"), (2, "c2", "second"), (3, "c3", "third")]

/-- A catalog holding `sampleChart` under `c2` and an insight under `c3`. -/
def sampleCatalog2 : Catalog :=
  sampleCatalog.AddAsset "c2" sampleChart

/-- The catalog `sampleCatalog2` with an audience under `c1` as well. -/
def sampleCatalog3 : Catalog :=
  sampleCatalog2.AddAsset "c1"
    (.audience { ID := "c1", Name := "Gen Z", Description := "", Segment := "18-24", Size := 0 })

end store

namespace api

open models catalog store

/-- The body of an add request, as decoded (`AddFavoriteRequest` in `handlers.go`). -/
structure AddFavoriteRequest where
  AssetID : String
  Description : String
  deriving DecidableEq, Repr

/-- What a handler writes to its `http.ResponseWriter`: the status code and the body. -/
structure Response where
  Code : Nat
  Body : String
  deriving DecidableEq, Repr

/-- The constant `http.StatusCreated`. -/
def StatusCreated : Nat := 201

/-- The constant `http.StatusBadRequest`. -/
def StatusBadRequest : Nat := 400

/-- The constant `http.StatusNotFound`. -/
def StatusNotFound : Nat := 404

/-- The constant `http.StatusConflict`. -/
def StatusConflict : Nat := 409

/-- The constant `http.StatusInternalServerError`. -/
def StatusInternalServerError : Nat := 500

/-- The response of `http.Error(w, msg, code)`: the code, and the message followed by
a line feed. -/
def httpError (msg : String) (code : Nat) : Response :=
  { Code := code, Body := msg ++ "\n" }

/-- The response of `w.WriteHeader(code)` with nothing written after it. -/
def writeHeader (code : Nat) : Response :=
  { Code := code, Body := "" }

/-- The handler `addFavoriteHandler` over the in-memory store.  `Global` is
`catalog.Global`, `userID` is `mux.Vars(r)["id"]`, `decoded` is what decoding
the body into an `AddFavoriteRequest` gives (`none` when `Decode` returns an
error), and `now` is the time `AddFavorite` reads if it is called. -/
def addFavoriteHandler (Global : Catalog) (s : MemoryStore) (now : Time) (userID : String)
    (decoded : Option AddFavoriteRequest) : Response × MemoryStore :=
  match decoded with
  | none => (httpError "invalid request" StatusBadRequest, s)
  | some req =>
    if req.AssetID = "" then (httpError "assetId is required" StatusBadRequest, s)
    else
      match Global.Get req.AssetID with
      | none => (httpError "asset not found in catalog" StatusNotFound, s)
      | some _ =>
        match s.AddFavorite now userID req.AssetID req.Description with
        | (some err, s1) =>
          if err.Error = "asset already favorited" then (httpError err.Error StatusConflict, s1)
          else (httpError "failed to add favorite" StatusInternalServerError, s1)
        | (none, s1) => (writeHeader StatusCreated, s1)

/-- The body of an edit request, as decoded (`EditFavoriteRequest` in `handlers.go`). -/
structure EditFavoriteRequest where
  Description : String
  deriving DecidableEq, Repr

/-- The constant `http.StatusNoContent`. -/
def StatusNoContent : Nat := 204

/-- The test `errors.Is(err, target)` on the error values of the store, none
of which wraps another: equality of the two values. -/
def errorsIs (err target : store.Error) : Bool :=
  decide (err = target)

/-- The handler `editFavoriteHandler` over the in-memory store.  `userID` and
`assetID` are the path variables, and `decoded` is what decoding the body into
an `EditFavoriteRequest` gives (`none` when `Decode` returns an error).  The
handler does not read `catalog.Global`. -/
def editFavoriteHandler (s : MemoryStore) (userID assetID : String)
    (decoded : Option EditFavoriteRequest) : Response × MemoryStore :=
  match decoded with
  | none => (httpError "invalid request" StatusBadRequest, s)
  | some req =>
    match s.EditFavoriteDescription userID assetID req.Description with
    | (some err, s1) =>
      if errorsIs err Error.ErrAssetNotFound then (httpError err.Error StatusNotFound, s1)
      else (httpError "failed to update description" StatusInternalServerError, s1)
    | (none, s1) => (writeHeader StatusNoContent, s1)

/-- A request made while `catalog.Global` holds the catalog `Global`: an add
request or an edit request, each with what decoding its body gives. -/
inductive Request where
  | add (now : Time) (userID : String) (decoded : Option AddFavoriteRequest)
  | edit (userID assetID : String) (decoded : Option EditFavoriteRequest)

/-- The handler the router calls for a request. -/
def Request.serve (Global : Catalog) (s : MemoryStore) : Request → Response × MemoryStore
  | .add now userID decoded => addFavoriteHandler Global s now userID decoded
  | .edit userID assetID decoded => editFavoriteHandler s userID assetID decoded

/-- A catalog holding two charts whose names differ in case only. -/
def dupCatalog : Catalog :=
  (Initialize.AddAsset "a1"
      (.chart { ID := "a1", Name := "Unique Name", Description := "", ChartType := "bar",
                DataSource := "" })).AddAsset "a2"
    (.chart { ID := "a2", Name := "unique name", Description := "", ChartType := "line",
              DataSource := "" })

/-- The store after the user `validation_user` has added the chart `a1` of
`dupCatalog` through the handler. -/
def dupStore : MemoryStore :=
  (addFavoriteHandler dupCatalog NewMemoryStore 1 "validation_user" (some ⟨"a1", "first"⟩)).2

/-- A catalog that holds an asset under the empty identifier. -/
def emptyKeyCatalog : Catalog :=
  Initialize.AddAsset "" sampleChart

end api

namespace version

/-- The package variable `Version`. -/
def Version : String := "0.1"

/-- The function `os.Getenv` over an environment: the value of the variable, or
the empty string when it is not set. -/
def Getenv (env : String → Option String) (key : String) : String :=
  (env key).getD ""

/-- The function `Get`, in the environment `env`. -/
def Get (env : String → Option String) : String :=
  let v := Getenv env "FAVORITES_API_VERSION"
  if v ≠ "" then v else Version

/-- An environment in which no variable is set. -/
def noEnv : String → Option String :=
  fun _ => none

/-- An environment in which `FAVORITES_API_VERSION` is set to `value` and nothing else is set. -/
def envWith (value : String) : String → Option String :=
  fun key => if key = "FAVORITES_API_VERSION" then some value else none

end version

namespace health

/-- The JSON structure returned by the health endpoint (`HealthResponse`). -/
structure HealthResponse where
  Status : String
  Version : String
  deriving DecidableEq, Repr

/-- What `Handler` writes: the content type set, the status code, and the value
encoded as the body. -/
structure Written where
  ContentType : String
  Code : Nat
  Body : HealthResponse
  deriving DecidableEq, Repr

/-- The constant `http.StatusOK`. -/
def StatusOK : Nat := 200

/-- The handler `Handler` of the `/healthz` endpoint, in the environment `env`. -/
def Handler (env : String → Option String) : Written :=
  { ContentType := "application/json", Code := StatusOK,
    Body := { Status := "ok", Version := version.Get env } }

end health

namespace store

open models catalog

theorem findAsset_eq_none_iff (assetID : String) (l : List Favorite) :
    findAsset assetID l = none ↔ ∀ f ∈ l, f.AssetID ≠ assetID := by
  induction l with
  | nil => simp [findAsset]
  | cons fav rest ih =>
    by_cases h : fav.AssetID = assetID
    · simp [findAsset, h]
    · simp [findAsset, h, ih]

theorem findAsset_isSome_iff (assetID : String) (l : List Favorite) :
    (∃ i, findAsset assetID l = some i) ↔ ∃ f ∈ l, f.AssetID = assetID := by
  constructor
  · rintro ⟨i, hi⟩
    by_contra hcon
    push_neg at hcon
    rw [(findAsset_eq_none_iff assetID l).mpr hcon] at hi
    cases hi
  · rintro ⟨f, hf, hfa⟩
    cases h : findAsset assetID l with
    | some i => exact ⟨i, rfl⟩
    | none => exact absurd hfa ((findAsset_eq_none_iff assetID l).mp h f hf)

theorem findAsset_some_split {assetID : String} {l : List Favorite} {i : Nat}
    (h : findAsset assetID l = some i) :
    ∃ pre f post, l = pre ++ f :: post ∧ pre.length = i ∧ f.AssetID = assetID ∧
      ∀ g ∈ pre, g.AssetID ≠ assetID := by
  induction l generalizing i with
  | nil => simp [findAsset] at h
  | cons fav rest ih =>
    by_cases hfav : fav.AssetID = assetID
    · simp [findAsset, hfav] at h
      exact ⟨[], fav, rest, rfl, by simp [h], hfav, by simp⟩
    · simp [findAsset, hfav] at h
      obtain ⟨j, hj, rfl⟩ := h
      obtain ⟨pre, f, post, hl, hlen, hf, hpre⟩ := ih hj
      refine ⟨fav :: pre, f, post, by simp [hl], by simp [hlen], hf, ?_⟩
      intro g hg
      rcases List.mem_cons.mp hg with rfl | hg
      · exact hfav
      · exact hpre g hg

theorem findAsset_split (assetID : String) (pre post : List Favorite) (f : Favorite)
    (hf : f.AssetID = assetID) (hpre : ∀ g ∈ pre, g.AssetID ≠ assetID) :
    findAsset assetID (pre ++ f :: post) = some pre.length := by
  induction pre with
  | nil => simp [findAsset, hf]
  | cons g pre ih =>
    have hg : g.AssetID ≠ assetID := hpre g (by simp)
    have := ih (fun x hx => hpre x (by simp [hx]))
    simp [findAsset, hg, this]

theorem take_drop_split (pre post : List Favorite) (f : Favorite) :
    (pre ++ f :: post).take pre.length ++ (pre ++ f :: post).drop (pre.length + 1)
      = pre ++ post := by
  simp [List.take_append_eq_append_take, List.drop_append_eq_append_drop]

theorem setDescription_split (desc : String) (pre post : List Favorite) (f : Favorite) :
    setDescription desc (pre ++ f :: post) pre.length
      = pre ++ { f with Description := desc } :: post := by
  induction pre with
  | nil => simp [setDescription]
  | cons g pre ih => simp [setDescription, ih]

theorem loop_eq_filterMap (c : Catalog) (l : List Favorite) (result : List FavoriteWithAsset) :
    ListFavorites.loop c l result = result ++ l.filterMap (joinOne c) := by
  induction l generalizing result with
  | nil => simp [ListFavorites.loop]
  | cons fav rest ih =>
    cases h : c.Get fav.AssetID with
    | none => simp [ListFavorites.loop, h, ih, joinOne]
    | some asset => simp [ListFavorites.loop, h, ih, joinOne]

theorem loop_append (c : Catalog) (l₁ l₂ : List Favorite) :
    ListFavorites.loop c (l₁ ++ l₂) [] = ListFavorites.loop c l₁ [] ++ ListFavorites.loop c l₂ [] := by
  simp [loop_eq_filterMap]

theorem favorites_insert_self (s : MemoryStore) (userID : String) (l : List Favorite) :
    ({ users := s.users.insert userID l } : MemoryStore).favorites userID = l := by
  simp [MemoryStore.favorites, Finmap.lookup_insert]

theorem favorites_insert_of_ne (s : MemoryStore) {userID other : String} (l : List Favorite)
    (h : other ≠ userID) :
    ({ users := s.users.insert userID l } : MemoryStore).favorites other = s.favorites other := by
  simp [MemoryStore.favorites, Finmap.lookup_insert_of_ne _ h]

theorem assetIDs_setDescription (desc : String) (l : List Favorite) (i : Nat) :
    assetIDs (setDescription desc l i) = assetIDs l := by
  induction l generalizing i with
  | nil => simp [setDescription]
  | cons fav rest ih =>
    cases i with
    | zero => simp [setDescription, assetIDs]
    | succ j =>
      have := ih j
      simp only [assetIDs] at this
      simp [setDescription, assetIDs, this]

theorem length_setDescription (desc : String) (l : List Favorite) (i : Nat) :
    (setDescription desc l i).length = l.length := by
  induction l generalizing i with
  | nil => simp [setDescription]
  | cons fav rest ih =>
    cases i with
    | zero => simp [setDescription]
    | succ j => simp [setDescription, ih j]

theorem nodup_assetIDs_append {assetID : String} {l : List Favorite}
    (hnone : findAsset assetID l = none) (hl : (assetIDs l).Nodup)
    (description : String) (now : Time) :
    (assetIDs (l ++ [{ AssetID := assetID, Description := description, CreatedAt := now }])).Nodup := by
  rw [findAsset_eq_none_iff] at hnone
  simp only [assetIDs, List.map_append, List.map_cons, List.map_nil]
  rw [List.nodup_append]
  refine ⟨hl, by simp, ?_⟩
  intro x hx hx'
  simp only [List.mem_singleton] at hx'
  subst hx'
  obtain ⟨f, hf, hfa⟩ := List.mem_map.mp hx
  exact hnone f hf hfa

theorem nodup_assetIDs_remove {assetID : String} {l : List Favorite} {i : Nat}
    (hsome : findAsset assetID l = some i) (hl : (assetIDs l).Nodup) :
    (assetIDs (l.take i ++ l.drop (i + 1))).Nodup := by
  obtain ⟨pre, f, post, rfl, rfl, -, -⟩ := findAsset_some_split hsome
  rw [take_drop_split]
  refine List.Nodup.sublist ?_ hl
  simp only [assetIDs]
  exact List.Sublist.map _ (List.Sublist.append_left (List.sublist_cons_self f post) pre)

theorem favorites_new (userID : String) : NewMemoryStore.favorites userID = [] := by
  simp [MemoryStore.favorites, NewMemoryStore, Finmap.lookup_empty]

theorem apply_nodup (s : MemoryStore) (op : Op)
    (hs : ∀ u, (assetIDs (s.favorites u)).Nodup) :
    ∀ u, (assetIDs ((op.apply s).favorites u)).Nodup := by
  intro u
  cases op with
  | add now userID assetID description =>
    simp only [Op.apply, MemoryStore.AddFavorite]
    cases h : findAsset assetID (s.favorites userID) with
    | some i => exact hs u
    | none =>
      by_cases hu : u = userID
      · subst hu
        simp only [favorites_insert_self]
        exact nodup_assetIDs_append h (hs u) description now
      · simp only [favorites_insert_of_ne s _ hu]
        exact hs u
  | remove userID assetID =>
    simp only [Op.apply, MemoryStore.RemoveFavorite]
    cases h : findAsset assetID (s.favorites userID) with
    | none => exact hs u
    | some i =>
      by_cases hu : u = userID
      · subst hu
        simp only [favorites_insert_self]
        exact nodup_assetIDs_remove h (hs u)
      · simp only [favorites_insert_of_ne s _ hu]
        exact hs u
  | edit userID assetID desc =>
    simp only [Op.apply, MemoryStore.EditFavoriteDescription]
    cases h : findAsset assetID (s.favorites userID) with
    | none => exact hs u
    | some i =>
      by_cases hu : u = userID
      · subst hu
        simp only [favorites_insert_self, assetIDs_setDescription]
        exact hs u
      · simp only [favorites_insert_of_ne s _ hu]
        exact hs u
  | list c userID =>
    simp only [Op.apply, MemoryStore.ListFavorites]
    exact hs u

theorem foldl_nodup (ops : List Op) (s : MemoryStore)
    (hs : ∀ u, (assetIDs (s.favorites u)).Nodup) :
    ∀ u, (assetIDs ((ops.foldl Op.apply s).favorites u)).Nodup := by
  induction ops generalizing s with
  | nil => simpa using hs
  | cons op ops ih =>
    simp only [List.foldl_cons]
    exact ih (op.apply s) (apply_nodup s op hs)

/-- C1. In every store reached from `NewMemoryStore()` by a finite sequence of
`AddFavorite`, `RemoveFavorite`, `EditFavoriteDescription` and `ListFavorites`
calls (any arguments, any times, any catalogs), the asset identifiers of each
user's collection are pairwise distinct, and so each asset identifier has at
most one record in that collection. -/
theorem C1_reachable_unique (ops : List Op) (userID : String) :
    (assetIDs ((run ops).favorites userID)).Nodup ∧
      ∀ assetID : String,
        (((run ops).favorites userID).filter (fun f => f.AssetID = assetID)).length ≤ 1 := by
  have hnd : (assetIDs ((run ops).favorites userID)).Nodup :=
    foldl_nodup ops NewMemoryStore (fun u => by simp [favorites_new, assetIDs]) userID
  refine ⟨hnd, fun assetID => ?_⟩
  have hcount := List.nodup_iff_count_le_one.mp hnd assetID
  have hEq : ∀ l : List Favorite,
      (l.filter (fun f => f.AssetID = assetID)).length = (assetIDs l).count assetID := by
    intro l
    induction l with
    | nil => simp [assetIDs]
    | cons f rest ih =>
      simp only [assetIDs] at ih
      by_cases hf : f.AssetID = assetID
      · simp [assetIDs, List.filter_cons, hf, ih]
      · simp [assetIDs, List.filter_cons, hf, ih, List.count_cons]
  rw [hEq]
  exact hcount

/-- C2. `AddFavorite` returns the error "asset already favorited" exactly when
the user's collection already holds a record with that asset identifier; it
returns no other error; and when it returns the error the store is the one
before the call, so the existing record keeps its description and its
creation time. -/
theorem C2_add_duplicate_rejected (s : MemoryStore) (now : Time)
    (userID assetID d2 : String) :
    ((s.AddFavorite now userID assetID d2).1 = some (Error.New "asset already favorited") ↔
        ∃ f ∈ s.favorites userID, f.AssetID = assetID) ∧
      ((s.AddFavorite now userID assetID d2).1 ≠ none →
        (s.AddFavorite now userID assetID d2).1 = some (Error.New "asset already favorited")) ∧
      ((∃ f ∈ s.favorites userID, f.AssetID = assetID) →
        (s.AddFavorite now userID assetID d2).2 = s ∧
        ∀ f ∈ s.favorites userID, f.AssetID = assetID →
          f ∈ (s.AddFavorite now userID assetID d2).2.favorites userID) := by
  cases h : findAsset assetID (s.favorites userID) with
  | some i =>
    have hex : ∃ f ∈ s.favorites userID, f.AssetID = assetID :=
      (findAsset_isSome_iff assetID _).mp ⟨i, h⟩
    have hadd : s.AddFavorite now userID assetID d2 =
        (some (Error.New "asset already favorited"), s) := by
      simp only [MemoryStore.AddFavorite, h]
    rw [hadd]
    exact ⟨⟨fun _ => hex, fun _ => rfl⟩, fun _ => rfl, fun _ => ⟨rfl, fun f hf _ => hf⟩⟩
  | none =>
    have hno := (findAsset_eq_none_iff assetID _).mp h
    have hadd : (s.AddFavorite now userID assetID d2).1 = none := by
      simp only [MemoryStore.AddFavorite, h]
    rw [hadd]
    refine ⟨⟨fun hc => (by cases hc), ?_⟩, fun hc => absurd rfl hc, ?_⟩
    · rintro ⟨f, hf, hfa⟩
      exact absurd hfa (hno f hf)
    · rintro ⟨f, hf, hfa⟩
      exact absurd hfa (hno f hf)

/-- Witness of C2: a second add of `c1` by `u1` is rejected and changes nothing. -/
theorem C2_add_duplicate_rejected_witness :
    (sampleStore.AddFavorite 9 "u1" "c1" "other").1 = some (Error.New "asset already favorited") ∧
      (sampleStore.AddFavorite 9 "u1" "c1" "other").2 = sampleStore ∧
      (⟨"c1", "note", 5⟩ : Favorite) ∈
        (sampleStore.AddFavorite 9 "u1" "c1" "other").2.favorites "u1" := by
  have h := C2_add_duplicate_rejected sampleStore 9 "u1" "c1" "other"
  have hex : ∃ f ∈ sampleStore.favorites "u1", f.AssetID = "c1" :=
    ⟨⟨"c1", "note", 5⟩, by decide, rfl⟩
  exact ⟨h.1.mpr hex, (h.2.2 hex).1, (h.2.2 hex).2 ⟨"c1", "note", 5⟩ (by decide) rfl⟩

/-- C3. When the user's collection holds no record with the asset identifier,
`AddFavorite` succeeds for every description, and the user's collection
afterwards is the collection before followed by the one record made of the
asset identifier, the description and the current time. -/
theorem C3_add_appends (s : MemoryStore) (now : Time) (userID assetID d : String)
    (hnew : ∀ f ∈ s.favorites userID, f.AssetID ≠ assetID) :
    (s.AddFavorite now userID assetID d).1 = none ∧
      (s.AddFavorite now userID assetID d).2.favorites userID =
        s.favorites userID ++ [{ AssetID := assetID, Description := d, CreatedAt := now }] := by
  have h := (findAsset_eq_none_iff assetID _).mpr hnew
  simp only [MemoryStore.AddFavorite, h, favorites_insert_self, and_self]

/-- Witness of C3: an add with an empty description to a user holding another asset. -/
theorem C3_add_appends_witness :
    (∀ f ∈ sampleStore.favorites "u1", f.AssetID ≠ "c2") ∧
      (sampleStore.AddFavorite 7 "u1" "c2" "").1 = none ∧
      (sampleStore.AddFavorite 7 "u1" "c2" "").2.favorites "u1" =
        sampleStore.favorites "u1" ++ [{ AssetID := "c2", Description := "", CreatedAt := 7 }] :=
  ⟨by decide, C3_add_appends sampleStore 7 "u1" "c2" "" (by decide)⟩

/-- C4. `ListFavorites` returns no error and a slice holding, in stored order,
one entry for each stored record of the user whose asset identifier is a key
of the catalog: the entry carries the record's asset identifier, description
and creation time and the asset `Catalog.Get` returns for that identifier.  So
the output is at most as long as the collection, and as long exactly when every
record resolves. -/
theorem C4_list_is_join (s : MemoryStore) (c : Catalog) (userID : String) :
    ∃ out : List FavoriteWithAsset,
      (s.ListFavorites c userID).1 = (some out, none) ∧
      out.map record =
        (s.favorites userID).filter (fun f => decide (f.AssetID ∈ c.assets.keys)) ∧
      (∀ e ∈ out, c.Get e.AssetID = some e.Asset) ∧
      out.length ≤ (s.favorites userID).length ∧
      (out.length = (s.favorites userID).length ↔
        ∀ f ∈ s.favorites userID, f.AssetID ∈ c.assets.keys) := by
  refine ⟨ListFavorites.loop c (s.favorites userID) [], rfl, ?_⟩
  rw [loop_eq_filterMap, List.nil_append]
  have key : ∀ l : List Favorite,
      (l.filterMap (joinOne c)).map record =
        l.filter (fun f => decide (f.AssetID ∈ c.assets.keys)) := by
    intro l
    induction l with
    | nil => simp
    | cons f rest ih =>
      cases hg : c.Get f.AssetID with
      | none =>
        have hk : f.AssetID ∉ c.assets.keys := by
          rw [Finmap.mem_keys, ← Finmap.lookup_eq_none]
          exact hg
        simp [List.filterMap_cons, joinOne, hg, hk, ih, record]
      | some asset =>
        have hk : f.AssetID ∈ c.assets.keys := by
          rw [Finmap.mem_keys]
          by_contra hcon
          rw [← Finmap.lookup_eq_none] at hcon
          simp [Catalog.Get, hcon] at hg
        simp [List.filterMap_cons, joinOne, hg, hk, ih, record]
  have hlen : (List.filterMap (joinOne c) (s.favorites userID)).length =
      ((s.favorites userID).filter (fun f => decide (f.AssetID ∈ c.assets.keys))).length := by
    rw [← key, List.length_map]
  refine ⟨key _, ?_, ?_, ?_⟩
  · intro e he
    obtain ⟨f, -, hf⟩ := List.mem_filterMap.mp he
    cases hg : c.Get f.AssetID with
    | none => simp [joinOne, hg] at hf
    | some asset =>
      simp only [joinOne, hg, Option.map_some', Option.some.injEq] at hf
      subst hf
      exact hg
  · rw [hlen]
    exact List.length_filter_le _ _
  · rw [hlen]
    constructor
    · intro h f hf
      have := (List.filter_eq_self.mp (List.Sublist.eq_of_length (List.filter_sublist _) h)) f hf
      simpa using this
    · intro h
      rw [List.filter_eq_self.mpr]
      intro f hf
      simpa using h f hf

theorem ListFavorites_fst (s : MemoryStore) (c : Catalog) (userID : String) :
    (s.ListFavorites c userID).1 = (some (ListFavorites.loop c (s.favorites userID) []), none) :=
  rfl

theorem loop_assetID_resolves {c : Catalog} {l : List Favorite} {e : FavoriteWithAsset}
    (he : e ∈ ListFavorites.loop c l []) :
    ∃ f ∈ l, c.Get f.AssetID = some e.Asset ∧ record e = f := by
  rw [loop_eq_filterMap, List.nil_append] at he
  obtain ⟨f, hf, hj⟩ := List.mem_filterMap.mp he
  cases hg : c.Get f.AssetID with
  | none => simp [joinOne, hg] at hj
  | some asset =>
    simp only [joinOne, hg, Option.map_some', Option.some.injEq] at hj
    subst hj
    exact ⟨f, hf, hg, rfl⟩

theorem loop_singleton (c : Catalog) (f : Favorite) :
    ListFavorites.loop c [f] [] = (joinOne c f).toList := by
  rw [loop_eq_filterMap]
  cases h : joinOne c f <;> simp [h]

/-- C5. `ListFavorites` leaves the store as it was.  When the user holds a
record `f` for an asset identifier the catalog lacks, the listing is the
listing of the records before `f` followed by that of the records after it, it
has no entry for that identifier, and once `Catalog.AddAsset` has put an asset
under the identifier the next listing has, between those two parts, the entry
made of the identifier, the description and creation time of `f`, and that
asset. -/
theorem C5_list_keeps_dangling (s : MemoryStore) (c : Catalog) (userID : String) :
    (s.ListFavorites c userID).2 = s ∧
      ∀ (assetID : String) (asset : Asset) (pre post : List Favorite) (f : Favorite),
        s.favorites userID = pre ++ f :: post → f.AssetID = assetID →
        c.Get assetID = none →
        (s.ListFavorites c userID).1 =
            (some (ListFavorites.loop c pre [] ++ ListFavorites.loop c post []), none) ∧
          (∀ e ∈ ListFavorites.loop c pre [] ++ ListFavorites.loop c post [],
            e.AssetID ≠ assetID) ∧
          ((s.ListFavorites c userID).2.ListFavorites (c.AddAsset assetID asset) userID).1 =
            (some (ListFavorites.loop (c.AddAsset assetID asset) pre [] ++
                { AssetID := assetID, Description := f.Description,
                  CreatedAt := f.CreatedAt, Asset := asset } ::
                ListFavorites.loop (c.AddAsset assetID asset) post []), none) := by
  refine ⟨rfl, ?_⟩
  intro assetID asset pre post f hsplit hf hmiss
  subst hf
  have hsplit2 : pre ++ f :: post = pre ++ ([f] ++ post) := rfl
  refine ⟨?_, ?_, ?_⟩
  · rw [ListFavorites_fst, hsplit, hsplit2, loop_append, loop_append, loop_singleton]
    simp [joinOne, hmiss]
  · intro e he hcon
    have hres : ∃ g, c.Get g.AssetID = some e.Asset ∧ record e = g := by
      rcases List.mem_append.mp he with h | h
      · obtain ⟨g, -, hg⟩ := loop_assetID_resolves h
        exact ⟨g, hg⟩
      · obtain ⟨g, -, hg⟩ := loop_assetID_resolves h
        exact ⟨g, hg⟩
    obtain ⟨g, hg, hrec⟩ := hres
    have hid : g.AssetID = e.AssetID := by rw [← hrec]; rfl
    rw [hid, hcon, hmiss] at hg
    cases hg
  · have hget : (c.AddAsset f.AssetID asset).Get f.AssetID = some asset := by
      simp [Catalog.AddAsset, Catalog.Get, Finmap.lookup_insert]
    show (s.ListFavorites (c.AddAsset f.AssetID asset) userID).1 = _
    rw [ListFavorites_fst, hsplit, hsplit2, loop_append, loop_append, loop_singleton]
    simp [joinOne, hget]

/-- Witness of C5: `u1` holds `c1`, `c2`, `c3`; the catalog holds `c3` only and
then receives `c2`. -/
theorem C5_list_keeps_dangling_witness :
    (sampleStore3.ListFavorites sampleCatalog "u1").1 =
        (some (ListFavorites.loop sampleCatalog [⟨"c1", "note", 5⟩] [] ++
          ListFavorites.loop sampleCatalog [⟨"c3", "third", 7⟩] []), none) ∧
      (∀ e ∈ ListFavorites.loop sampleCatalog [⟨"c1", "note", 5⟩] [] ++
          ListFavorites.loop sampleCatalog [⟨"c3", "third", 7⟩] [], e.AssetID ≠ "c2") ∧
      ((sampleStore3.ListFavorites sampleCatalog "u1").2.ListFavorites
          (sampleCatalog.AddAsset "c2" sampleChart) "u1").1 =
        (some (ListFavorites.loop (sampleCatalog.AddAsset "c2" sampleChart)
              [⟨"c1", "note", 5⟩] [] ++
            { AssetID := "c2", Description := "second", CreatedAt := 6, Asset := sampleChart } ::
            ListFavorites.loop (sampleCatalog.AddAsset "c2" sampleChart)
              [⟨"c3", "third", 7⟩] []), none) :=
  (C5_list_keeps_dangling sampleStore3 sampleCatalog "u1").2 "c2" sampleChart
    [⟨"c1", "note", 5⟩] [⟨"c3", "third", 7⟩] ⟨"c2", "second", 6⟩ (by decide) rfl (by decide)

/-- C6. When the user's asset identifiers are pairwise distinct and the asset
is favorited, `RemoveFavorite` returns no error; afterwards the user's
collection has no record with that asset identifier, is shorter by exactly
one, and is the old sequence with that one record taken out, the other
records unchanged and in their order. -/
theorem C6_remove_deletes_in_order (s : MemoryStore) (userID assetID : String)
    (huniq : (assetIDs (s.favorites userID)).Nodup)
    (hfav : ∃ f ∈ s.favorites userID, f.AssetID = assetID) :
    (s.RemoveFavorite userID assetID).1 = none ∧
      (∀ g ∈ (s.RemoveFavorite userID assetID).2.favorites userID, g.AssetID ≠ assetID) ∧
      ((s.RemoveFavorite userID assetID).2.favorites userID).length + 1 =
        (s.favorites userID).length ∧
      ∃ pre f post, s.favorites userID = pre ++ f :: post ∧ f.AssetID = assetID ∧
        (s.RemoveFavorite userID assetID).2.favorites userID = pre ++ post := by
  obtain ⟨i, hi⟩ := (findAsset_isSome_iff assetID _).mpr hfav
  obtain ⟨pre, f, post, hsplit, hlen, hf, hpre⟩ := findAsset_some_split hi
  have hrem : s.RemoveFavorite userID assetID =
      (none, { users := s.users.insert userID (pre ++ post) }) := by
    simp only [MemoryStore.RemoveFavorite, hi]
    rw [hsplit, ← hlen, take_drop_split]
  rw [hrem]
  simp only [favorites_insert_self]
  refine ⟨trivial, ?_, ?_, pre, f, post, hsplit, hf, rfl⟩
  · intro g hg
    rcases List.mem_append.mp hg with h | h
    · exact hpre g h
    · intro hga
      rw [hsplit] at huniq
      simp only [assetIDs, List.map_append, List.map_cons] at huniq
      have h2 := (List.nodup_cons.mp (List.nodup_append.mp huniq).2.1).1
      exact h2 (List.mem_map.mpr ⟨g, h, by rw [hga, hf]⟩)
  · rw [hsplit]
    simp only [List.length_append, List.length_cons]
    omega

/-- Witness of C6: removing the middle favorite of three. -/
theorem C6_remove_deletes_in_order_witness :
    (sampleStore3.RemoveFavorite "u1" "c2").1 = none ∧
      (∀ g ∈ (sampleStore3.RemoveFavorite "u1" "c2").2.favorites "u1", g.AssetID ≠ "c2") ∧
      ((sampleStore3.RemoveFavorite "u1" "c2").2.favorites "u1").length + 1 =
        (sampleStore3.favorites "u1").length ∧
      ∃ pre f post, sampleStore3.favorites "u1" = pre ++ f :: post ∧ f.AssetID = "c2" ∧
        (sampleStore3.RemoveFavorite "u1" "c2").2.favorites "u1" = pre ++ post :=
  C6_remove_deletes_in_order sampleStore3 "u1" "c2" (by decide)
    ⟨⟨"c2", "second", 6⟩, by decide, rfl⟩

/-- C7. `RemoveFavorite` returns no error for any input, and when the user's
collection holds no record with the asset identifier (as for a user the store
has never seen) the store after the call is the store before it. -/
theorem C7_remove_absent_is_noop (s : MemoryStore) (userID assetID : String) :
    (s.RemoveFavorite userID assetID).1 = none ∧
      ((∀ f ∈ s.favorites userID, f.AssetID ≠ assetID) →
        (s.RemoveFavorite userID assetID).2 = s ∧
        ∀ u, (s.RemoveFavorite userID assetID).2.favorites u = s.favorites u) := by
  cases h : findAsset assetID (s.favorites userID) with
  | some i =>
    have hrem : (s.RemoveFavorite userID assetID).1 = none := by
      simp only [MemoryStore.RemoveFavorite, h]
    refine ⟨hrem, fun hno => ?_⟩
    rw [(findAsset_eq_none_iff assetID _).mpr hno] at h
    cases h
  | none =>
    have hrem : s.RemoveFavorite userID assetID = (none, s) := by
      simp only [MemoryStore.RemoveFavorite, h]
    rw [hrem]
    exact ⟨rfl, fun _ => ⟨rfl, fun _ => rfl⟩⟩

/-- Witness of C7: a removal for a user the store has never seen. -/
theorem C7_remove_absent_is_noop_witness :
    (sampleStore3.RemoveFavorite "nobody" "c1").1 = none ∧
      (sampleStore3.RemoveFavorite "nobody" "c1").2 = sampleStore3 :=
  ⟨(C7_remove_absent_is_noop sampleStore3 "nobody" "c1").1,
    ((C7_remove_absent_is_noop sampleStore3 "nobody" "c1").2 (by decide)).1⟩

/-- C8. `EditFavoriteDescription` returns `ErrAssetNotFound` exactly when the
user's collection holds no record with the asset identifier; it returns no
other error; and when it returns the error the store after the call is the
store before it. -/
theorem C8_edit_requires_existence (s : MemoryStore) (userID assetID x : String) :
    ((s.EditFavoriteDescription userID assetID x).1 = some Error.ErrAssetNotFound ↔
        ∀ f ∈ s.favorites userID, f.AssetID ≠ assetID) ∧
      ((s.EditFavoriteDescription userID assetID x).1 ≠ none →
        (s.EditFavoriteDescription userID assetID x).1 = some Error.ErrAssetNotFound) ∧
      ((∀ f ∈ s.favorites userID, f.AssetID ≠ assetID) →
        (s.EditFavoriteDescription userID assetID x).2 = s) := by
  cases h : findAsset assetID (s.favorites userID) with
  | some i =>
    obtain ⟨f, hf, hfa⟩ := (findAsset_isSome_iff assetID _).mp ⟨i, h⟩
    have hed : (s.EditFavoriteDescription userID assetID x).1 = none := by
      simp only [MemoryStore.EditFavoriteDescription, h]
    rw [hed]
    refine ⟨⟨fun hc => (by cases hc), fun hno => absurd hfa (hno f hf)⟩,
      fun hc => absurd rfl hc, fun hno => absurd hfa (hno f hf)⟩
  | none =>
    have hno := (findAsset_eq_none_iff assetID _).mp h
    have hed : s.EditFavoriteDescription userID assetID x = (some Error.ErrAssetNotFound, s) := by
      simp only [MemoryStore.EditFavoriteDescription, h]
    rw [hed]
    exact ⟨⟨fun _ => hno, fun _ => rfl⟩, fun _ => rfl, fun _ => rfl⟩

/-- Witness of C8: an edit of an asset the user has not favorited. -/
theorem C8_edit_requires_existence_witness :
    (sampleStore.EditFavoriteDescription "u1" "c2" "x").1 = some Error.ErrAssetNotFound ∧
      (sampleStore.EditFavoriteDescription "u1" "c2" "x").2 = sampleStore :=
  ⟨(C8_edit_requires_existence sampleStore "u1" "c2" "x").1.mpr (by decide),
    (C8_edit_requires_existence sampleStore "u1" "c2" "x").2.2 (by decide)⟩

/-- C9. When the asset is favorited, `EditFavoriteDescription` returns no
error and replaces the description of the first record with that asset
identifier by `x`: the record keeps its asset identifier, creation time and
position, every other record of the user is unchanged, and the length is
unchanged.  A following `ListFavorites` shows description `x` for the asset
when the catalog holds it, and the entries of all other assets as before. -/
theorem C9_edit_changes_description_only (s : MemoryStore) (c : Catalog)
    (userID assetID x : String)
    (hfav : ∃ f ∈ s.favorites userID, f.AssetID = assetID) :
    (s.EditFavoriteDescription userID assetID x).1 = none ∧
      ((s.EditFavoriteDescription userID assetID x).2.favorites userID).length =
        (s.favorites userID).length ∧
      (∃ pre f post, s.favorites userID = pre ++ f :: post ∧ f.AssetID = assetID ∧
        (∀ g ∈ pre, g.AssetID ≠ assetID) ∧
        (s.EditFavoriteDescription userID assetID x).2.favorites userID =
          pre ++ { AssetID := f.AssetID, Description := x, CreatedAt := f.CreatedAt } :: post ∧
        ((s.EditFavoriteDescription userID assetID x).2.ListFavorites c userID).1 =
          (some (ListFavorites.loop c pre [] ++
            ListFavorites.loop c
              [{ AssetID := f.AssetID, Description := x, CreatedAt := f.CreatedAt }] [] ++
            ListFavorites.loop c post []), none) ∧
        (s.ListFavorites c userID).1 =
          (some (ListFavorites.loop c pre [] ++ ListFavorites.loop c [f] [] ++
            ListFavorites.loop c post []), none) ∧
        ∀ asset, c.Get assetID = some asset →
          ListFavorites.loop c
              [{ AssetID := f.AssetID, Description := x, CreatedAt := f.CreatedAt }] [] =
            [{ AssetID := assetID, Description := x, CreatedAt := f.CreatedAt,
               Asset := asset }]) ∧
      ∀ out out1,
        (s.ListFavorites c userID).1.1 = some out →
        ((s.EditFavoriteDescription userID assetID x).2.ListFavorites c userID).1.1 = some out1 →
        out1.filter (fun e => decide (e.AssetID ≠ assetID)) =
          out.filter (fun e => decide (e.AssetID ≠ assetID)) := by
  obtain ⟨i, hi⟩ := (findAsset_isSome_iff assetID _).mpr hfav
  obtain ⟨pre, f, post, hsplit, hlen, hf, hpre⟩ := findAsset_some_split hi
  have hed : s.EditFavoriteDescription userID assetID x =
      (none, MemoryStore.mk (s.users.insert userID (pre ++ ⟨f.AssetID, x, f.CreatedAt⟩ :: post))) := by
    simp only [MemoryStore.EditFavoriteDescription, hi]
    rw [hsplit, ← hlen, setDescription_split]
  have hcons : ∀ (g : Favorite), pre ++ g :: post = pre ++ ([g] ++ post) := fun _ => rfl
  have hnew : ((s.EditFavoriteDescription userID assetID x).2.ListFavorites c userID).1 =
      (some (ListFavorites.loop c pre [] ++
        ListFavorites.loop c
          [{ AssetID := f.AssetID, Description := x, CreatedAt := f.CreatedAt }] [] ++
        ListFavorites.loop c post []), none) := by
    rw [hed, ListFavorites_fst, favorites_insert_self, hcons, loop_append, loop_append,
      List.append_assoc]
  have hold : (s.ListFavorites c userID).1 =
      (some (ListFavorites.loop c pre [] ++ ListFavorites.loop c [f] [] ++
        ListFavorites.loop c post []), none) := by
    rw [ListFavorites_fst, hsplit, hcons, loop_append, loop_append, List.append_assoc]
  refine ⟨by rw [hed], ?_, ⟨pre, f, post, hsplit, hf, hpre, ?_, hnew, hold, ?_⟩, ?_⟩
  · rw [hed, favorites_insert_self, hsplit]
    simp
  · rw [hed, favorites_insert_self]
  · intro asset hget
    rw [loop_singleton]
    simp [joinOne, hf, hget]
  · intro out out1 hout hout1
    rw [hold] at hout
    rw [hnew] at hout1
    simp only [Option.some.injEq] at hout hout1
    subst hout hout1
    simp only [List.filter_append, loop_singleton]
    congr 2
    cases hg : c.Get f.AssetID with
    | none => simp [joinOne, hg]
    | some asset =>
      rw [hf] at hg
      simp [joinOne, hg, hf]

/-- Witness of C9: editing the middle favorite of three. -/
theorem C9_edit_changes_description_only_witness :
    (sampleStore3.EditFavoriteDescription "u1" "c2" "new").1 = none ∧
      ((sampleStore3.EditFavoriteDescription "u1" "c2" "new").2.favorites "u1").length =
        (sampleStore3.favorites "u1").length :=
  ⟨(C9_edit_changes_description_only sampleStore3 sampleCatalog "u1" "c2" "new"
      ⟨⟨"c2", "second", 6⟩, by decide, rfl⟩).1,
    (C9_edit_changes_description_only sampleStore3 sampleCatalog "u1" "c2" "new"
      ⟨⟨"c2", "second", 6⟩, by decide, rfl⟩).2.1⟩

theorem AddFavorite_favorites_self (s : MemoryStore) (now : Time) (userID assetID d : String)
    (hnew : ∀ f ∈ s.favorites userID, f.AssetID ≠ assetID) :
    (s.AddFavorite now userID assetID d).2.favorites userID =
      s.favorites userID ++ [{ AssetID := assetID, Description := d, CreatedAt := now }] := by
  have h := (findAsset_eq_none_iff assetID _).mpr hnew
  simp only [MemoryStore.AddFavorite, h, favorites_insert_self]

theorem AddFavorite_favorites_of_ne (s : MemoryStore) (now : Time)
    (userID assetID description : String) {other : String} (h : other ≠ userID) :
    (s.AddFavorite now userID assetID description).2.favorites other = s.favorites other := by
  cases hfind : findAsset assetID (s.favorites userID) with
  | some i =>
    simp only [MemoryStore.AddFavorite, hfind]
  | none =>
    simp only [MemoryStore.AddFavorite, hfind]
    exact favorites_insert_of_ne s _ h

theorem RemoveFavorite_favorites_of_ne (s : MemoryStore) (userID assetID : String)
    {other : String} (h : other ≠ userID) :
    (s.RemoveFavorite userID assetID).2.favorites other = s.favorites other := by
  cases hfind : findAsset assetID (s.favorites userID) with
  | some i =>
    simp only [MemoryStore.RemoveFavorite, hfind]
    exact favorites_insert_of_ne s _ h
  | none =>
    simp only [MemoryStore.RemoveFavorite, hfind]

theorem EditFavoriteDescription_favorites_of_ne (s : MemoryStore) (userID assetID desc : String)
    {other : String} (h : other ≠ userID) :
    (s.EditFavoriteDescription userID assetID desc).2.favorites other = s.favorites other := by
  cases hfind : findAsset assetID (s.favorites userID) with
  | some i =>
    simp only [MemoryStore.EditFavoriteDescription, hfind]
    exact favorites_insert_of_ne s _ h
  | none =>
    simp only [MemoryStore.EditFavoriteDescription, hfind]

theorem ListFavorites_congr (s t : MemoryStore) (c : Catalog) (userID : String)
    (h : s.favorites userID = t.favorites userID) :
    (s.ListFavorites c userID).1 = (t.ListFavorites c userID).1 := by
  rw [ListFavorites_fst, ListFavorites_fst, h]

/-- C10. For distinct users `userA` and `userB`, each of `AddFavorite`,
`RemoveFavorite` and `EditFavoriteDescription` called for `userA` leaves the
collection of `userB`, and hence what `ListFavorites` returns for `userB`, as
it was.  When `userB` has no favorite for the asset, then after `userA` adds
it the listing of `userB` has no entry for it, an edit of it by `userB`
returns `ErrAssetNotFound` and leaves the store as it is, and the record of
`userA` is still there with its description. -/
theorem C10_user_isolation (s : MemoryStore) (c : Catalog) (now : Time)
    (userA userB assetID d x : String) (hne : userA ≠ userB) :
    ((s.AddFavorite now userA assetID d).2.favorites userB = s.favorites userB ∧
      (s.RemoveFavorite userA assetID).2.favorites userB = s.favorites userB ∧
      (s.EditFavoriteDescription userA assetID x).2.favorites userB = s.favorites userB) ∧
    (((s.AddFavorite now userA assetID d).2.ListFavorites c userB).1 =
        (s.ListFavorites c userB).1 ∧
      ((s.RemoveFavorite userA assetID).2.ListFavorites c userB).1 =
        (s.ListFavorites c userB).1 ∧
      ((s.EditFavoriteDescription userA assetID x).2.ListFavorites c userB).1 =
        (s.ListFavorites c userB).1) ∧
    ((∀ f ∈ s.favorites userB, f.AssetID ≠ assetID) →
      (∃ out, ((s.AddFavorite now userA assetID d).2.ListFavorites c userB).1 = (some out, none) ∧
        ∀ e ∈ out, e.AssetID ≠ assetID) ∧
      (s.AddFavorite now userA assetID d).2.EditFavoriteDescription userB assetID x =
        (some Error.ErrAssetNotFound, (s.AddFavorite now userA assetID d).2) ∧
      (∃ f ∈ ((s.AddFavorite now userA assetID d).2.EditFavoriteDescription
            userB assetID x).2.favorites userA, f.AssetID = assetID) ∧
      ((∀ f ∈ s.favorites userA, f.AssetID ≠ assetID) →
        ({ AssetID := assetID, Description := d, CreatedAt := now } : Favorite) ∈
          ((s.AddFavorite now userA assetID d).2.EditFavoriteDescription
            userB assetID x).2.favorites userA)) := by
  have hBA : userB ≠ userA := fun h => hne h.symm
  have hadd := AddFavorite_favorites_of_ne s now userA assetID d hBA
  have hrem := RemoveFavorite_favorites_of_ne s userA assetID hBA
  have hed := EditFavoriteDescription_favorites_of_ne s userA assetID x hBA
  refine ⟨⟨hadd, hrem, hed⟩, ⟨ListFavorites_congr _ _ c userB hadd,
    ListFavorites_congr _ _ c userB hrem, ListFavorites_congr _ _ c userB hed⟩, ?_⟩
  intro hB
  have hnone : findAsset assetID ((s.AddFavorite now userA assetID d).2.favorites userB) = none := by
    rw [hadd]
    exact (findAsset_eq_none_iff assetID _).mpr hB
  have hedB : (s.AddFavorite now userA assetID d).2.EditFavoriteDescription userB assetID x =
      (some Error.ErrAssetNotFound, (s.AddFavorite now userA assetID d).2) := by
    simp only [MemoryStore.EditFavoriteDescription, hnone]
  refine ⟨⟨_, ListFavorites_fst _ c userB, ?_⟩, hedB, ?_, ?_⟩
  · intro e he hcon
    rw [hadd] at he
    obtain ⟨g, hg, -, hrec⟩ := loop_assetID_resolves he
    have hid : g.AssetID = e.AssetID := by rw [← hrec]; rfl
    exact hB g hg (hid.trans hcon)
  · rw [hedB]
    cases h : findAsset assetID (s.favorites userA) with
    | some i =>
      have hs : (s.AddFavorite now userA assetID d).2 = s := by
        simp only [MemoryStore.AddFavorite, h]
      rw [hs]
      exact (findAsset_isSome_iff assetID _).mp ⟨i, h⟩
    | none =>
      refine ⟨⟨assetID, d, now⟩, ?_, rfl⟩
      simp only [MemoryStore.AddFavorite, h, favorites_insert_self]
      simp
  · intro hA
    rw [hedB, (AddFavorite_favorites_self s now userA assetID d hA)]
    simp

/-- Witness of C10: `u1` holds `c1`, and `u2`, who holds nothing, tries to edit it. -/
theorem C10_user_isolation_witness :
    (sampleStore.AddFavorite 8 "u1" "c2" "mine").2.EditFavoriteDescription "u2" "c2" "hacked" =
        (some Error.ErrAssetNotFound, (sampleStore.AddFavorite 8 "u1" "c2" "mine").2) ∧
      ({ AssetID := "c2", Description := "mine", CreatedAt := 8 } : Favorite) ∈
        ((sampleStore.AddFavorite 8 "u1" "c2" "mine").2.EditFavoriteDescription
          "u2" "c2" "hacked").2.favorites "u1" :=
  ⟨((C10_user_isolation sampleStore sampleCatalog 8 "u1" "u2" "c2" "mine" "hacked"
      (by decide)).2.2 (by decide)).2.1,
    ((C10_user_isolation sampleStore sampleCatalog 8 "u1" "u2" "c2" "mine" "hacked"
      (by decide)).2.2 (by decide)).2.2.2 (by decide)⟩

theorem addAll_favorites (s : MemoryStore) (userID : String)
    (reqs : List (Time × String × String))
    (hnd : (assetIDs (s.favorites userID) ++ reqs.map (·.2.1)).Nodup) :
    (addAll s userID reqs).favorites userID =
      s.favorites userID ++ reqs.map (fun r => (⟨r.2.1, r.2.2, r.1⟩ : Favorite)) := by
  induction reqs generalizing s with
  | nil => simp [addAll]
  | cons r rest ih =>
    obtain ⟨now, assetID, description⟩ := r
    have hnew : ∀ f ∈ s.favorites userID, f.AssetID ≠ assetID := by
      intro f hf hfa
      have hdis := (List.nodup_append.mp hnd).2.2
      exact hdis (List.mem_map.mpr ⟨f, hf, hfa⟩) (by simp)
    have hadd := AddFavorite_favorites_self s now userID assetID description hnew
    have hnd2 : (assetIDs ((s.AddFavorite now userID assetID description).2.favorites userID) ++
        rest.map (·.2.1)).Nodup := by
      rw [hadd]
      simpa [assetIDs, List.append_assoc] using hnd
    simp only [addAll]
    rw [ih _ hnd2, hadd]
    simp

theorem listedIDs_filterMap (c : Catalog) (l : List Favorite) :
    listedIDs (l.filterMap (joinOne c)) =
      (assetIDs l).filter (fun a => decide (a ∈ c.assets.keys)) := by
  induction l with
  | nil => simp [listedIDs, assetIDs]
  | cons f rest ih =>
    simp only [listedIDs, assetIDs] at ih
    cases hg : c.Get f.AssetID with
    | none =>
      have hk : f.AssetID ∉ c.assets.keys := by
        rw [Finmap.mem_keys, ← Finmap.lookup_eq_none]
        exact hg
      simp [listedIDs, assetIDs, List.filterMap_cons, joinOne, hg, hk, ih]
    | some asset =>
      have hk : f.AssetID ∈ c.assets.keys := by
        rw [Finmap.mem_keys]
        by_contra hcon
        rw [← Finmap.lookup_eq_none] at hcon
        simp [Catalog.Get, hcon] at hg
      simp [listedIDs, assetIDs, List.filterMap_cons, joinOne, hg, hk, ih]

theorem filterMap_joinOne_filter (c : Catalog) (assetID : String) (l : List Favorite) :
    (l.filter (fun f => decide (f.AssetID ≠ assetID))).filterMap (joinOne c) =
      (l.filterMap (joinOne c)).filter (fun e => decide (e.AssetID ≠ assetID)) := by
  induction l with
  | nil => simp
  | cons f rest ih =>
    by_cases hf : f.AssetID = assetID
    · subst hf
      cases hg : c.Get f.AssetID with
      | none => simpa [List.filter_cons, List.filterMap_cons, joinOne, hg] using ih
      | some asset => simpa [List.filter_cons, List.filterMap_cons, joinOne, hg] using ih
    · cases hg : c.Get f.AssetID with
      | none => simpa [List.filter_cons, List.filterMap_cons, joinOne, hg, hf] using ih
      | some asset => simpa [List.filter_cons, List.filterMap_cons, joinOne, hg, hf] using ih

theorem RemoveFavorite_fst (s : MemoryStore) (userID assetID : String) :
    (s.RemoveFavorite userID assetID).1 = none := by
  cases h : findAsset assetID (s.favorites userID) <;>
    simp only [MemoryStore.RemoveFavorite, h]

theorem RemoveFavorite_favorites_eq_filter (s : MemoryStore) (userID assetID : String)
    (huniq : (assetIDs (s.favorites userID)).Nodup) :
    (s.RemoveFavorite userID assetID).2.favorites userID =
      (s.favorites userID).filter (fun f => decide (f.AssetID ≠ assetID)) := by
  cases h : findAsset assetID (s.favorites userID) with
  | none =>
    have hno := (findAsset_eq_none_iff assetID _).mp h
    simp only [MemoryStore.RemoveFavorite, h]
    rw [List.filter_eq_self.mpr]
    intro f hf
    simpa using hno f hf
  | some i =>
    obtain ⟨pre, f, post, hsplit, hlen, hf, hpre⟩ := findAsset_some_split h
    simp only [MemoryStore.RemoveFavorite, h, favorites_insert_self]
    rw [hsplit] at huniq ⊢
    rw [← hlen, take_drop_split]
    have hpost : ∀ g ∈ post, g.AssetID ≠ assetID := by
      intro g hg hga
      simp only [assetIDs, List.map_append, List.map_cons] at huniq
      have h2 := (List.nodup_cons.mp (List.nodup_append.mp huniq).2.1).1
      exact h2 (List.mem_map.mpr ⟨g, hg, by rw [hga, hf]⟩)
    rw [List.filter_append, List.filter_cons]
    simp only [hf, ne_eq, not_true_eq_false, decide_False, Bool.false_eq_true, if_false]
    rw [List.filter_eq_self.mpr, List.filter_eq_self.mpr]
    · intro g hg
      simpa using hpost g hg
    · intro g hg
      simpa using hpre g hg

/-- C11. Starting from a user with no favorites, after `AddFavorite` has been
called for pairwise distinct asset identifiers that are all keys of the
catalog, `ListFavorites` returns as many entries as there were calls, with the
asset identifiers in the order of the calls; and after `RemoveFavorite` for
any one of them it returns the other entries, unchanged and in the same
relative order. -/
theorem C11_insertion_order_preserved (s : MemoryStore) (c : Catalog) (userID : String)
    (reqs : List (Time × String × String))
    (hempty : s.favorites userID = [])
    (hdistinct : (reqs.map (·.2.1)).Nodup)
    (hcat : ∀ r ∈ reqs, r.2.1 ∈ c.assets.keys) :
    ∃ out : List FavoriteWithAsset,
      ((addAll s userID reqs).ListFavorites c userID).1 = (some out, none) ∧
      out.length = reqs.length ∧
      listedIDs out = reqs.map (·.2.1) ∧
      ∀ a ∈ reqs.map (·.2.1),
        ((addAll s userID reqs).RemoveFavorite userID a).1 = none ∧
        (((addAll s userID reqs).RemoveFavorite userID a).2.ListFavorites c userID).1 =
          (some (out.filter (fun e => decide (e.AssetID ≠ a))), none) ∧
        (out.filter (fun e => decide (e.AssetID ≠ a))).length + 1 = reqs.length ∧
        listedIDs (out.filter (fun e => decide (e.AssetID ≠ a))) = (reqs.map (·.2.1)).erase a := by
  have hfav : (addAll s userID reqs).favorites userID =
      reqs.map (fun r => (⟨r.2.1, r.2.2, r.1⟩ : Favorite)) := by
    rw [addAll_favorites s userID reqs (by simpa [hempty, assetIDs] using hdistinct), hempty,
      List.nil_append]
  have hids : assetIDs ((addAll s userID reqs).favorites userID) = reqs.map (·.2.1) := by
    rw [hfav]
    simp [assetIDs, Function.comp_def]
  have hout : listedIDs (ListFavorites.loop c ((addAll s userID reqs).favorites userID) []) =
      reqs.map (·.2.1) := by
    rw [loop_eq_filterMap, List.nil_append, listedIDs_filterMap, hids, List.filter_eq_self]
    intro a ha
    obtain ⟨r, hr, rfl⟩ := List.mem_map.mp ha
    simpa using hcat r hr
  have hlen : (ListFavorites.loop c ((addAll s userID reqs).favorites userID) []).length =
      reqs.length := by
    have := congrArg List.length hout
    simpa [listedIDs] using this
  refine ⟨_, ListFavorites_fst _ c userID, hlen, hout, ?_⟩
  intro a ha
  have hrem := RemoveFavorite_favorites_eq_filter (addAll s userID reqs) userID a
    (by rw [hids]; exact hdistinct)
  have hlist : (((addAll s userID reqs).RemoveFavorite userID a).2.ListFavorites c userID).1 =
      (some ((ListFavorites.loop c ((addAll s userID reqs).favorites userID) []).filter
        (fun e => decide (e.AssetID ≠ a))), none) := by
    rw [ListFavorites_fst, hrem, loop_eq_filterMap, loop_eq_filterMap, List.nil_append,
      List.nil_append, filterMap_joinOne_filter]
  have hidsf : listedIDs ((ListFavorites.loop c ((addAll s userID reqs).favorites userID) []).filter
      (fun e => decide (e.AssetID ≠ a))) = (reqs.map (·.2.1)).erase a := by
    rw [List.Nodup.erase_eq_filter hdistinct, ← hout]
    simp only [listedIDs, List.filter_map]
    congr 2
    funext e
    by_cases he : e.AssetID = a <;> simp [bne, he]
  refine ⟨RemoveFavorite_fst _ userID a, hlist, ?_, hidsf⟩
  have h1 := congrArg List.length hidsf
  rw [List.length_erase_of_mem ha] at h1
  simp only [listedIDs, List.length_map] at h1
  have hpos : 0 < reqs.length := by
    cases reqs with
    | nil => simp at ha
    | cons r rest => simp
  rw [h1]
  omega

/-- Witness of C11: three adds for a new user, all three assets in the catalog. -/
theorem C11_insertion_order_preserved_witness :
    ∃ out : List FavoriteWithAsset,
      ((addAll NewMemoryStore "u" sampleAdds).ListFavorites sampleCatalog3 "u").1 =
        (some out, none) ∧
      out.length = sampleAdds.length ∧
      listedIDs out = sampleAdds.map (·.2.1) ∧
      ∀ a ∈ sampleAdds.map (·.2.1),
        ((addAll NewMemoryStore "u" sampleAdds).RemoveFavorite "u" a).1 = none ∧
        (((addAll NewMemoryStore "u" sampleAdds).RemoveFavorite "u" a).2.ListFavorites
            sampleCatalog3 "u").1 =
          (some (out.filter (fun e => decide (e.AssetID ≠ a))), none) ∧
        (out.filter (fun e => decide (e.AssetID ≠ a))).length + 1 = sampleAdds.length ∧
        listedIDs (out.filter (fun e => decide (e.AssetID ≠ a))) =
          (sampleAdds.map (·.2.1)).erase a :=
  C11_insertion_order_preserved NewMemoryStore sampleCatalog3 "u" sampleAdds
    (by decide) (by decide) (by decide)

/-- C12. For a user whose collection is empty, and so for a user the store
has never seen, `ListFavorites` returns no error and a slice that is present
and empty; it does so too once the only favorite of a user has been removed. -/
theorem C12_empty_listing_is_present (s : MemoryStore) (c : Catalog) (userID : String) :
    (s.favorites userID = [] → (s.ListFavorites c userID).1 = (some [], none)) ∧
      (s.users.lookup userID = none → (s.ListFavorites c userID).1 = (some [], none)) ∧
      ∀ f : Favorite, s.favorites userID = [f] →
        (s.RemoveFavorite userID f.AssetID).1 = none ∧
        ((s.RemoveFavorite userID f.AssetID).2.ListFavorites c userID).1 = (some [], none) := by
  have hempty : ∀ t : MemoryStore, t.favorites userID = [] →
      (t.ListFavorites c userID).1 = (some [], none) := by
    intro t ht
    rw [ListFavorites_fst, ht]
    rfl
  refine ⟨hempty s, ?_, ?_⟩
  · intro hnone
    exact hempty s (by simp [MemoryStore.favorites, hnone])
  · intro f hf
    refine ⟨RemoveFavorite_fst s userID f.AssetID, hempty _ ?_⟩
    have hfind : findAsset f.AssetID (s.favorites userID) = some 0 := by
      rw [hf]
      simp [findAsset]
    simp only [MemoryStore.RemoveFavorite, hfind, favorites_insert_self]
    rw [hf]
    rfl

/-- Witness of C12: a user never seen, and a user whose only favorite is removed. -/
theorem C12_empty_listing_is_present_witness :
    (sampleStore.ListFavorites sampleCatalog3 "nobody").1 = (some [], none) ∧
      ((sampleStore.RemoveFavorite "u1" "c1").2.ListFavorites sampleCatalog3 "u1").1 =
        (some [], none) :=
  ⟨(C12_empty_listing_is_present sampleStore sampleCatalog3 "nobody").2.1 (by decide),
    ((C12_empty_listing_is_present sampleStore sampleCatalog3 "u1").2.2
      ⟨"c1", "note", 5⟩ (by decide)).2⟩

theorem AddFavorite_of_found (t : MemoryStore) (now : Time) (userID assetID d : String)
    {i : Nat} (h : findAsset assetID (t.favorites userID) = some i) :
    t.AddFavorite now userID assetID d = (some (Error.New "asset already favorited"), t) := by
  simp only [MemoryStore.AddFavorite, h]

theorem AddFavorite_fst_of_absent (t : MemoryStore) (now : Time) (userID assetID d : String)
    (h : ∀ f ∈ t.favorites userID, f.AssetID ≠ assetID) :
    (t.AddFavorite now userID assetID d).1 = none := by
  simp only [MemoryStore.AddFavorite, (findAsset_eq_none_iff assetID _).mpr h]

/-- C13. A call of `AddFavorite`, `RemoveFavorite` or `EditFavoriteDescription`
returns the same result and leaves the same store whatever catalog
`catalog.Global` holds.  In particular, for an asset identifier the catalog
lacks and the user has not favorited, `AddFavorite` succeeds and stores the
record; `ListFavorites` then has no entry for it, and a second `AddFavorite`
for it fails as already favorited and changes nothing. -/
theorem C13_mutations_ignore_catalog (s : MemoryStore) (C1 C2 : Catalog) :
    (∀ call : Call, call.isMutation = true → call.exec C1 s = call.exec C2 s) ∧
      ∀ (now now2 : Time) (userID assetID d d2 : String),
        C1.Get assetID = none → (∀ f ∈ s.favorites userID, f.AssetID ≠ assetID) →
        (s.AddFavorite now userID assetID d).1 = none ∧
        (s.AddFavorite now userID assetID d).2.favorites userID =
          s.favorites userID ++ [⟨assetID, d, now⟩] ∧
        (∃ out, ((s.AddFavorite now userID assetID d).2.ListFavorites C1 userID).1 =
            (some out, none) ∧ ∀ e ∈ out, e.AssetID ≠ assetID) ∧
        (s.AddFavorite now userID assetID d).2.AddFavorite now2 userID assetID d2 =
          (some (Error.New "asset already favorited"), (s.AddFavorite now userID assetID d).2) := by
  constructor
  · intro call hmut
    cases call with
    | AddFavorite now userID assetID description => rfl
    | ListFavorites userID => simp [Call.isMutation] at hmut
    | RemoveFavorite userID assetID => rfl
    | EditFavoriteDescription userID assetID desc => rfl
  · intro now now2 userID assetID d d2 hmiss hnew
    have hfav := AddFavorite_favorites_self s now userID assetID d hnew
    refine ⟨AddFavorite_fst_of_absent s now userID assetID d hnew, hfav,
      ⟨_, ListFavorites_fst _ C1 userID, ?_⟩, ?_⟩
    · intro e he hcon
      obtain ⟨g, -, hg, hrec⟩ := loop_assetID_resolves he
      have hid : g.AssetID = e.AssetID := by rw [← hrec]; rfl
      rw [hid, hcon, hmiss] at hg
      cases hg
    · have hsome : findAsset assetID ((s.AddFavorite now userID assetID d).2.favorites userID) =
          some (s.favorites userID).length := by
        rw [hfav]
        exact findAsset_split assetID _ [] ⟨assetID, d, now⟩ rfl hnew
      exact AddFavorite_of_found _ now2 userID assetID d2 hsome

/-- Witness of C13: `u1` adds `c9`, which the catalog lacks, twice. -/
theorem C13_mutations_ignore_catalog_witness :
    (Call.AddFavorite 8 "u1" "c9" "x").exec sampleCatalog sampleStore =
        (Call.AddFavorite 8 "u1" "c9" "x").exec sampleCatalog3 sampleStore ∧
      (sampleStore.AddFavorite 8 "u1" "c9" "x").1 = none ∧
      (sampleStore.AddFavorite 8 "u1" "c9" "x").2.AddFavorite 9 "u1" "c9" "y" =
        (some (Error.New "asset already favorited"), (sampleStore.AddFavorite 8 "u1" "c9" "x").2) :=
  ⟨(C13_mutations_ignore_catalog sampleStore sampleCatalog sampleCatalog3).1
      (Call.AddFavorite 8 "u1" "c9" "x") rfl,
    ((C13_mutations_ignore_catalog sampleStore sampleCatalog sampleCatalog3).2
      8 9 "u1" "c9" "x" "y" (by decide) (by decide)).1,
    ((C13_mutations_ignore_catalog sampleStore sampleCatalog sampleCatalog3).2
      8 9 "u1" "c9" "x" "y" (by decide) (by decide)).2.2.2⟩

end store

namespace catalog

open models store

theorem keys_AddAsset (c : Catalog) (id : String) (asset : Asset) :
    (c.AddAsset id asset).assets.keys = insert id c.assets.keys := by
  ext k
  simp [Catalog.AddAsset, Finmap.mem_keys, Finmap.mem_insert]

theorem ListAssets_loop_eq (c : Catalog) (order : List String) (result : List Asset) :
    ListAssets.loop c order result = result ++ order.filterMap (fun k => c.assets.lookup k) := by
  induction order generalizing result with
  | nil => simp [ListAssets.loop]
  | cons k rest ih =>
    cases h : c.assets.lookup k with
    | none => simp [ListAssets.loop, h, ih]
    | some asset => simp [ListAssets.loop, h, ih]

theorem map_some_filterMap_lookup (c : Catalog) (order : List String)
    (hkeys : ∀ k ∈ order, k ∈ c.assets.keys) :
    (order.filterMap (fun k => c.assets.lookup k)).map some = order.map c.Get := by
  induction order with
  | nil => simp
  | cons k rest ih =>
    have hk : k ∈ c.assets := Finmap.mem_keys.mp (hkeys k (by simp))
    have hrest := ih (fun x hx => hkeys x (by simp [hx]))
    obtain ⟨asset, hasset⟩ := Option.isSome_iff_exists.mp (Finmap.lookup_isSome.mpr hk)
    simpa [List.filterMap_cons, hasset, Catalog.Get] using hrest

/-- C14. After `AddAsset(id, asset)`, `Get(id)` returns that asset as found,
also when the identifier was present before, in which case the asset inserted
last is the one returned; `Get` of any other identifier returns what it
returned before the insert; and on the catalog `Initialize` makes, `Get`
reports not found for every identifier. -/
theorem C14_add_then_get (c : Catalog) (id : String) (asset : Asset) :
    (c.AddAsset id asset).Get id = some asset ∧
      (∀ earlier : Asset, ((c.AddAsset id earlier).AddAsset id asset).Get id = some asset) ∧
      (∀ other : String, other ≠ id → (c.AddAsset id asset).Get other = c.Get other) ∧
      ∀ any : String, Initialize.Get any = none := by
  refine ⟨?_, ?_, ?_, ?_⟩
  · simp [Catalog.AddAsset, Catalog.Get, Finmap.lookup_insert]
  · intro earlier
    simp [Catalog.AddAsset, Catalog.Get, Finmap.lookup_insert]
  · intro other hne
    simp [Catalog.AddAsset, Catalog.Get, Finmap.lookup_insert_of_ne _ hne]
  · intro any
    simp [Initialize, Catalog.Get, Finmap.lookup_empty]

/-- Witness of C14: `c2` is inserted into a catalog that holds `c3`. -/
theorem C14_add_then_get_witness :
    (sampleCatalog.AddAsset "c2" sampleChart).Get "c2" = some sampleChart ∧
      (sampleCatalog.AddAsset "c2" sampleChart).Get "c3" = sampleCatalog.Get "c3" :=
  ⟨(C14_add_then_get sampleCatalog "c2" sampleChart).1,
    (C14_add_then_get sampleCatalog "c2" sampleChart).2.2.1 "c3" (by decide)⟩

/-- C15. `Count` is the number of distinct identifiers stored: it is 0 on the
catalog `Initialize` makes, one more after `AddAsset` of an identifier not
yet present, and the same after `AddAsset` of an identifier already present.
The keys of the catalog can be visited in some order, and for every order in
which `range` visits them `List` returns a slice as long as `Count` that
holds, for each key visited, the asset `Get` returns for it, so every stored
asset is in it. -/
theorem C15_count_and_list (c : Catalog) (id : String) (asset : Asset) :
    c.Count = c.assets.keys.card ∧
      Initialize.Count = 0 ∧
      (id ∉ c.assets.keys → (c.AddAsset id asset).Count = c.Count + 1) ∧
      (id ∈ c.assets.keys → (c.AddAsset id asset).Count = c.Count) ∧
      (∃ order, c.rangeOrder order) ∧
      ∀ order, c.rangeOrder order →
        (c.ListAssets order).length = c.Count ∧
        (c.ListAssets order).map some = order.map c.Get ∧
        ∀ k found, c.Get k = some found → found ∈ c.ListAssets order := by
  refine ⟨rfl, ?_, ?_, ?_, ?_, ?_⟩
  · simp [Initialize, Catalog.Count, Finmap.keys_empty]
  · intro hnew
    simp only [Catalog.Count, keys_AddAsset]
    exact Finset.card_insert_of_not_mem hnew
  · intro hold
    simp only [Catalog.Count, keys_AddAsset]
    exact Finset.card_insert_of_mem hold
  · exact ⟨c.assets.keys.toList, Finset.nodup_toList _, Finset.toList_toFinset _⟩
  · rintro order ⟨hnd, hkeys⟩
    have hmem : ∀ k ∈ order, k ∈ c.assets.keys := by
      intro k hk
      rw [← hkeys]
      exact List.mem_toFinset.mpr hk
    have hmap : (c.ListAssets order).map some = order.map c.Get := by
      rw [Catalog.ListAssets, ListAssets_loop_eq, List.nil_append]
      exact map_some_filterMap_lookup c order hmem
    refine ⟨?_, hmap, ?_⟩
    · have hlen := congrArg List.length hmap
      simp only [List.length_map] at hlen
      rw [hlen, Catalog.Count, ← hkeys, List.toFinset_card_of_nodup hnd]
    · intro k found hget
      have hk : k ∈ order := by
        rw [← List.mem_toFinset, hkeys, Finmap.mem_keys, ← Finmap.lookup_isSome]
        simp [Catalog.Get] at hget
        simp [hget]
      have hin : some found ∈ (c.ListAssets order).map some := by
        rw [hmap, ← hget]
        exact List.mem_map_of_mem _ hk
      obtain ⟨x, hx, hxe⟩ := List.mem_map.mp hin
      cases hxe
      exact hx

/-- Witness of C15: a catalog of three assets, its keys visited in the order
`c3`, `c1`, `c2`, and the insertion of a fourth and of an existing identifier. -/
theorem C15_count_and_list_witness :
    (sampleCatalog3.AddAsset "c4" sampleChart).Count = sampleCatalog3.Count + 1 ∧
      (sampleCatalog3.AddAsset "c2" sampleChart).Count = sampleCatalog3.Count ∧
      (sampleCatalog3.ListAssets ["c3", "c1", "c2"]).length = sampleCatalog3.Count ∧
      (sampleCatalog3.ListAssets ["c3", "c1", "c2"]).map some =
        ["c3", "c1", "c2"].map sampleCatalog3.Get :=
  ⟨(C15_count_and_list sampleCatalog3 "c4" sampleChart).2.2.1 (by decide),
    (C15_count_and_list sampleCatalog3 "c2" sampleChart).2.2.2.1 (by decide),
    ((C15_count_and_list sampleCatalog3 "c2" sampleChart).2.2.2.2.2 ["c3", "c1", "c2"]
      ⟨by decide, by decide⟩).1,
    ((C15_count_and_list sampleCatalog3 "c2" sampleChart).2.2.2.2.2 ["c3", "c1", "c2"]
      ⟨by decide, by decide⟩).2.1⟩

end catalog

namespace models

/-- C16. `Audience.Validate` returns no error exactly when `Name` is not
empty, `Segment` is not empty and `Size` is at least 0, so a `Size` of 0 is
accepted and every negative `Size` is rejected; the result does not depend on
`ID` or `Description`. -/
theorem C16_audience_validate (a : Audience) :
    (a.Validate = none ↔ a.Name ≠ "" ∧ a.Segment ≠ "" ∧ 0 ≤ a.Size) ∧
      (a.Size < 0 → a.Validate ≠ none) ∧
      (a.Name ≠ "" → a.Segment ≠ "" → a.Size = 0 → a.Validate = none) ∧
      ∀ id description : String,
        Audience.Validate { a with ID := id, Description := description } = a.Validate := by
  have hiff : a.Validate = none ↔ a.Name ≠ "" ∧ a.Segment ≠ "" ∧ 0 ≤ a.Size := by
    by_cases hn : a.Name = ""
    · simp [Audience.Validate, AssetBase.Validate, hn]
    · by_cases hs : a.Segment = ""
      · simp [Audience.Validate, AssetBase.Validate, hn, hs]
      · by_cases hz : a.Size < 0
        · simp [Audience.Validate, AssetBase.Validate, hn, hs, hz]
        · simp [Audience.Validate, AssetBase.Validate, hn, hs, hz]
          omega
  refine ⟨hiff, ?_, ?_, ?_⟩
  · intro hneg hval
    have := (hiff.mp hval).2.2
    omega
  · intro hn hs hz
    exact hiff.mpr ⟨hn, hs, by omega⟩
  · intro id description
    rfl

/-- Witness of C16: a size of 0 is accepted and a size of -1 is rejected. -/
theorem C16_audience_validate_witness :
    sampleAudience.Validate = none ∧ sampleAudienceNegative.Validate ≠ none :=
  ⟨(C16_audience_validate sampleAudience).2.2.1 (by decide) (by decide) rfl,
    (C16_audience_validate sampleAudienceNegative).2.1 (by decide)⟩

/-- C17. `Chart.Validate` returns no error exactly when `Name` and
`ChartType` are not empty; `DataSource`, `Description` and `ID` do not
influence the result. -/
theorem C17_chart_validate (c : Chart) :
    (c.Validate = none ↔ c.Name ≠ "" ∧ c.ChartType ≠ "") ∧
      ∀ id description dataSource : String,
        Chart.Validate { c with ID := id, Description := description,
                                DataSource := dataSource } = c.Validate := by
  constructor
  · by_cases hn : c.Name = ""
    · simp [Chart.Validate, AssetBase.Validate, hn]
    · by_cases ht : c.ChartType = ""
      · simp [Chart.Validate, AssetBase.Validate, hn, ht]
      · simp [Chart.Validate, AssetBase.Validate, hn, ht]
  · intro id description dataSource
    rfl

/-- C18. `Insight.Validate` returns no error exactly when `Name`, `Metric`
and `Value` are all not empty; when it fails, the error is that of the first
failing check in the order name, metric, value. -/
theorem C18_insight_validate (i : Insight) :
    (i.Validate = none ↔ i.Name ≠ "" ∧ i.Metric ≠ "" ∧ i.Value ≠ "") ∧
      (i.Name = "" → i.Validate = some "name is required") ∧
      (i.Name ≠ "" → i.Metric = "" → i.Validate = some "metric is required") ∧
      (i.Name ≠ "" → i.Metric ≠ "" → i.Value = "" → i.Validate = some "value is required") := by
  by_cases hn : i.Name = ""
  · simp [Insight.Validate, AssetBase.Validate, hn]
  · by_cases hm : i.Metric = ""
    · simp [Insight.Validate, AssetBase.Validate, hn, hm]
    · by_cases hv : i.Value = ""
      · simp [Insight.Validate, AssetBase.Validate, hn, hm, hv]
      · simp [Insight.Validate, AssetBase.Validate, hn, hm, hv]

/-- Witness of C18: with the name and the metric both empty, the name is reported;
with the metric and the value both empty, the metric is reported. -/
theorem C18_insight_validate_witness :
    sampleInsightEmpty.Validate = some "name is required" ∧
      sampleInsightNamed.Validate = some "metric is required" :=
  ⟨(C18_insight_validate sampleInsightEmpty).2.1 rfl,
    (C18_insight_validate sampleInsightNamed).2.2.1 (by decide) rfl⟩

end models

namespace api

open models catalog store

theorem Get_eq_none_iff (c : Catalog) (id : String) :
    c.Get id = none ↔ id ∉ c.assets.keys := by
  rw [Finmap.mem_keys, ← Finmap.lookup_eq_none]
  rfl

theorem Get_isSome_of_mem {c : Catalog} {id : String} (h : id ∈ c.assets.keys) :
    ∃ asset, c.Get id = some asset := by
  cases hg : c.Get id with
  | none => exact absurd h ((Get_eq_none_iff c id).mp hg)
  | some asset => exact ⟨asset, rfl⟩

theorem addFavoriteHandler_of_key (Global : Catalog) (s : MemoryStore) (now : Time)
    (userID : String) (req : AddFavoriteRequest)
    (hne : req.AssetID ≠ "") (hkey : req.AssetID ∈ Global.assets.keys) :
    addFavoriteHandler Global s now userID (some req) =
      match s.AddFavorite now userID req.AssetID req.Description with
      | (some err, s1) =>
        if err.Error = "asset already favorited" then (httpError err.Error StatusConflict, s1)
        else (httpError "failed to add favorite" StatusInternalServerError, s1)
      | (none, s1) => (writeHeader StatusCreated, s1) := by
  obtain ⟨asset, hget⟩ := Get_isSome_of_mem hkey
  simp only [addFavoriteHandler, hne, if_false, hget]

/-- C19. For a decoded add request whose asset identifier is not empty and is
not a key of the catalog, `addFavoriteHandler` responds 404 Not Found and
leaves the store as it was, whether or not the user already holds a favorite
for that identifier. -/
theorem C19_add_handler_unknown_asset (Global : Catalog) (s : MemoryStore) (now : Time)
    (userID : String) (req : AddFavoriteRequest)
    (hne : req.AssetID ≠ "") (hmiss : req.AssetID ∉ Global.assets.keys) :
    addFavoriteHandler Global s now userID (some req) =
        (httpError "asset not found in catalog" StatusNotFound, s) ∧
      (addFavoriteHandler Global s now userID (some req)).1.Code = 404 ∧
      (addFavoriteHandler Global s now userID (some req)).2 = s := by
  have hget := (Get_eq_none_iff Global req.AssetID).mpr hmiss
  have h : addFavoriteHandler Global s now userID (some req) =
      (httpError "asset not found in catalog" StatusNotFound, s) := by
    simp only [addFavoriteHandler, hne, if_false, hget]
  rw [h]
  exact ⟨rfl, rfl, rfl⟩

/-- Witness of C19: `u1` holds a favorite for `c1`, which the catalog lacks, and
adds it again. -/
theorem C19_add_handler_unknown_asset_witness :
    (∃ f ∈ sampleStore.favorites "u1", f.AssetID = "c1") ∧
      addFavoriteHandler sampleCatalog sampleStore 9 "u1" (some ⟨"c1", "again"⟩) =
        (httpError "asset not found in catalog" StatusNotFound, sampleStore) ∧
      (addFavoriteHandler sampleCatalog sampleStore 9 "u1" (some ⟨"c1", "again"⟩)).1.Code = 404 ∧
      (addFavoriteHandler sampleCatalog sampleStore 9 "u1" (some ⟨"c1", "again"⟩)).2 =
        sampleStore :=
  ⟨⟨⟨"c1", "note", 5⟩, by decide, rfl⟩,
    C19_add_handler_unknown_asset sampleCatalog sampleStore 9 "u1" ⟨"c1", "again"⟩
      (by decide) (by decide)⟩

/-- C20. For a decoded add request whose asset identifier is not empty and is
a key of the catalog, `addFavoriteHandler` responds 201 Created and appends
the favorite when the user has no favorite for that identifier, and responds
409 Conflict and leaves the store as it was when the user has one; it never
responds 500.  So of two identical requests in a row, made while the user has
no favorite for the identifier, the first gets 201 and the second 409. -/
theorem C20_add_handler_conflict (Global : Catalog) (s : MemoryStore) (now now2 : Time)
    (userID : String) (req : AddFavoriteRequest)
    (hne : req.AssetID ≠ "") (hkey : req.AssetID ∈ Global.assets.keys) :
    ((∀ f ∈ s.favorites userID, f.AssetID ≠ req.AssetID) →
        (addFavoriteHandler Global s now userID (some req)).1 = writeHeader StatusCreated ∧
        (addFavoriteHandler Global s now userID (some req)).1.Code = 201 ∧
        (addFavoriteHandler Global s now userID (some req)).2.favorites userID =
          s.favorites userID ++ [⟨req.AssetID, req.Description, now⟩] ∧
        (addFavoriteHandler Global
            (addFavoriteHandler Global s now userID (some req)).2 now2 userID (some req)).1.Code
          = 409 ∧
        (addFavoriteHandler Global
            (addFavoriteHandler Global s now userID (some req)).2 now2 userID (some req)).2
          = (addFavoriteHandler Global s now userID (some req)).2) ∧
      ((∃ f ∈ s.favorites userID, f.AssetID = req.AssetID) →
        addFavoriteHandler Global s now userID (some req) =
          (httpError "asset already favorited" StatusConflict, s) ∧
        (addFavoriteHandler Global s now userID (some req)).1.Code = 409) ∧
      (addFavoriteHandler Global s now userID (some req)).1.Code ≠ 500 := by
  have hfound : ∀ (t : MemoryStore) (tm : Time),
      (∃ f ∈ t.favorites userID, f.AssetID = req.AssetID) →
      addFavoriteHandler Global t tm userID (some req) =
        (httpError "asset already favorited" StatusConflict, t) := by
    intro t tm hex
    obtain ⟨i, hi⟩ := (findAsset_isSome_iff req.AssetID _).mpr hex
    rw [addFavoriteHandler_of_key Global t tm userID req hne hkey,
      AddFavorite_of_found t tm userID req.AssetID req.Description hi]
    rfl
  have hnew : (∀ f ∈ s.favorites userID, f.AssetID ≠ req.AssetID) →
      addFavoriteHandler Global s now userID (some req) =
        (writeHeader StatusCreated, (s.AddFavorite now userID req.AssetID req.Description).2) := by
    intro hno
    have h1 := AddFavorite_fst_of_absent s now userID req.AssetID req.Description hno
    rw [addFavoriteHandler_of_key Global s now userID req hne hkey]
    generalize s.AddFavorite now userID req.AssetID req.Description = r at h1
    obtain ⟨e, s1⟩ := r
    simp only at h1
    subst h1
    rfl
  refine ⟨?_, ?_, ?_⟩
  · intro hno
    have hfav := AddFavorite_favorites_self s now userID req.AssetID req.Description hno
    have hex : ∃ f ∈ (s.AddFavorite now userID req.AssetID req.Description).2.favorites userID,
        f.AssetID = req.AssetID := by
      rw [hfav]
      exact ⟨⟨req.AssetID, req.Description, now⟩, by simp, rfl⟩
    rw [hnew hno]
    refine ⟨rfl, rfl, hfav, ?_, ?_⟩
    · rw [hfound _ now2 hex]
      rfl
    · rw [hfound _ now2 hex]
  · intro hex
    rw [hfound s now hex]
    exact ⟨rfl, rfl⟩
  · by_cases hex : ∃ f ∈ s.favorites userID, f.AssetID = req.AssetID
    · rw [hfound s now hex]
      show (409 : Nat) ≠ 500
      decide
    · push_neg at hex
      rw [hnew hex]
      show (201 : Nat) ≠ 500
      decide

/-- Witness of C20: `u1` adds `c2`, which the catalog holds, twice. -/
theorem C20_add_handler_conflict_witness :
    (addFavoriteHandler sampleCatalog2 sampleStore 8 "u1" (some ⟨"c2", "mine"⟩)).1.Code = 201 ∧
      (addFavoriteHandler sampleCatalog2
        (addFavoriteHandler sampleCatalog2 sampleStore 8 "u1" (some ⟨"c2", "mine"⟩)).2
        9 "u1" (some ⟨"c2", "mine"⟩)).1.Code = 409 :=
  ⟨((C20_add_handler_conflict sampleCatalog2 sampleStore 8 9 "u1" ⟨"c2", "mine"⟩
      (by decide) (by decide)).1 (by decide)).2.1,
    ((C20_add_handler_conflict sampleCatalog2 sampleStore 8 9 "u1" ⟨"c2", "mine"⟩
      (by decide) (by decide)).1 (by decide)).2.2.2.1⟩

end api

namespace store

open models catalog

theorem EditFavoriteDescription_of_found (t : MemoryStore) (userID assetID desc : String)
    {i : Nat} (h : findAsset assetID (t.favorites userID) = some i) :
    t.EditFavoriteDescription userID assetID desc =
      (none, MemoryStore.mk (t.users.insert userID (setDescription desc (t.favorites userID) i))) := by
  simp only [MemoryStore.EditFavoriteDescription, h]

theorem EditFavoriteDescription_of_absent (t : MemoryStore) (userID assetID desc : String)
    (h : ∀ f ∈ t.favorites userID, f.AssetID ≠ assetID) :
    t.EditFavoriteDescription userID assetID desc = (some Error.ErrAssetNotFound, t) := by
  simp only [MemoryStore.EditFavoriteDescription, (findAsset_eq_none_iff assetID _).mpr h]

/-- C26. When the user has no favorite for the asset, `AddFavorite` followed
by `RemoveFavorite` for the same user and asset both succeed and leave every
user's sequence of records as it was before the add, so `ListFavorites`
returns for every user what it returned before. -/
theorem C26_add_remove_round_trip (s : MemoryStore) (c : Catalog) (now : Time)
    (userID assetID d : String)
    (hnew : ∀ f ∈ s.favorites userID, f.AssetID ≠ assetID) :
    (s.AddFavorite now userID assetID d).1 = none ∧
      ((s.AddFavorite now userID assetID d).2.RemoveFavorite userID assetID).1 = none ∧
      (∀ u, ((s.AddFavorite now userID assetID d).2.RemoveFavorite userID assetID).2.favorites u =
        s.favorites u) ∧
      ∀ u, (((s.AddFavorite now userID assetID d).2.RemoveFavorite userID assetID).2.ListFavorites
          c u).1 = (s.ListFavorites c u).1 := by
  have hfav := AddFavorite_favorites_self s now userID assetID d hnew
  have hsome : findAsset assetID ((s.AddFavorite now userID assetID d).2.favorites userID) =
      some (s.favorites userID).length := by
    rw [hfav]
    exact findAsset_split assetID _ [] ⟨assetID, d, now⟩ rfl hnew
  have hback : ∀ u,
      ((s.AddFavorite now userID assetID d).2.RemoveFavorite userID assetID).2.favorites u =
        s.favorites u := by
    intro u
    by_cases hu : u = userID
    · subst hu
      simp only [MemoryStore.RemoveFavorite, hsome, favorites_insert_self]
      rw [hfav, take_drop_split, List.append_nil]
    · rw [RemoveFavorite_favorites_of_ne _ userID assetID hu,
        AddFavorite_favorites_of_ne s now userID assetID d hu]
  exact ⟨AddFavorite_fst_of_absent s now userID assetID d hnew, RemoveFavorite_fst _ userID assetID,
    hback, fun u => ListFavorites_congr _ _ c u (hback u)⟩

/-- Witness of C26: `u1`, who holds `c1`, `c2` and `c3`, adds `c9` and removes it. -/
theorem C26_add_remove_round_trip_witness :
    (sampleStore3.AddFavorite 8 "u1" "c9" "x").1 = none ∧
      ((sampleStore3.AddFavorite 8 "u1" "c9" "x").2.RemoveFavorite "u1" "c9").1 = none ∧
      (∀ u, ((sampleStore3.AddFavorite 8 "u1" "c9" "x").2.RemoveFavorite "u1" "c9").2.favorites u =
        sampleStore3.favorites u) ∧
      ∀ u, (((sampleStore3.AddFavorite 8 "u1" "c9" "x").2.RemoveFavorite "u1" "c9").2.ListFavorites
          sampleCatalog3 u).1 = (sampleStore3.ListFavorites sampleCatalog3 u).1 :=
  C26_add_remove_round_trip sampleStore3 sampleCatalog3 8 "u1" "c9" "x" (by decide)

end store

namespace catalog

open models store

theorem insertAll_cons (c : Catalog) (p : String × Asset) (l : List (String × Asset)) :
    insertAll c (p :: l) = insertAll (c.AddAsset p.1 p.2) l :=
  rfl

theorem insertAll_append (c : Catalog) (l₁ l₂ : List (String × Asset)) :
    insertAll c (l₁ ++ l₂) = insertAll (insertAll c l₁) l₂ := by
  simp [insertAll, List.foldl_append]

theorem loadCharts_eq (c : Catalog) (charts : List Chart) :
    LoadFromFile.loadCharts c charts =
      insertAll c (charts.map (fun chart => (chart.ID, Asset.chart chart))) := by
  induction charts generalizing c with
  | nil => rfl
  | cons chart rest ih =>
    simp only [LoadFromFile.loadCharts, List.map_cons, insertAll_cons, ih]
    rfl

theorem loadInsights_eq (c : Catalog) (insights : List Insight) :
    LoadFromFile.loadInsights c insights =
      insertAll c (insights.map (fun insight => (insight.ID, Asset.insight insight))) := by
  induction insights generalizing c with
  | nil => rfl
  | cons insight rest ih =>
    simp only [LoadFromFile.loadInsights, List.map_cons, insertAll_cons, ih]
    rfl

theorem loadAudiences_eq (c : Catalog) (audiences : List Audience) :
    LoadFromFile.loadAudiences c audiences =
      insertAll c (audiences.map (fun audience => (audience.ID, Asset.audience audience))) := by
  induction audiences generalizing c with
  | nil => rfl
  | cons audience rest ih =>
    simp only [LoadFromFile.loadAudiences, List.map_cons, insertAll_cons, ih]
    rfl

theorem LoadFromFile_decoded (c : Catalog) (data : SeedData) :
    (c.LoadFromFile (.decoded data)).2 = insertAll c (seedInserts data) := by
  simp only [Catalog.LoadFromFile, seedInserts, insertAll_append, loadCharts_eq, loadInsights_eq,
    loadAudiences_eq]

theorem Get_AddAsset_self (c : Catalog) (id : String) (asset : Asset) :
    (c.AddAsset id asset).Get id = some asset := by
  simp [Catalog.AddAsset, Catalog.Get, Finmap.lookup_insert]

theorem Get_AddAsset_of_ne (c : Catalog) {id other : String} (asset : Asset) (h : other ≠ id) :
    (c.AddAsset id asset).Get other = c.Get other := by
  simp [Catalog.AddAsset, Catalog.Get, Finmap.lookup_insert_of_ne _ h]

theorem Get_insertAll_of_not_mem (c : Catalog) (l : List (String × Asset)) (k : String)
    (h : ∀ p ∈ l, p.1 ≠ k) : (insertAll c l).Get k = c.Get k := by
  induction l generalizing c with
  | nil => rfl
  | cons p rest ih =>
    rw [insertAll_cons, ih _ (fun q hq => h q (by simp [hq]))]
    exact Get_AddAsset_of_ne c p.2 (fun hk => h p (by simp) hk.symm)

theorem Get_insertAll_last (c : Catalog) (pre post : List (String × Asset)) (k : String)
    (asset : Asset) (h : ∀ p ∈ post, p.1 ≠ k) :
    (insertAll c (pre ++ (k, asset) :: post)).Get k = some asset := by
  rw [insertAll_append, insertAll_cons, Get_insertAll_of_not_mem _ post k h]
  exact Get_AddAsset_self _ k asset

theorem mem_keys_insertAll (c : Catalog) (l : List (String × Asset)) (k : String) :
    k ∈ (insertAll c l).assets.keys ↔ k ∈ c.assets.keys ∨ ∃ p ∈ l, p.1 = k := by
  induction l generalizing c with
  | nil => simp [insertAll]
  | cons p rest ih =>
    rw [insertAll_cons, ih, keys_AddAsset, Finset.mem_insert]
    constructor
    · rintro ((h | h) | ⟨q, hq, hqk⟩)
      · exact Or.inr ⟨p, by simp, h.symm⟩
      · exact Or.inl h
      · exact Or.inr ⟨q, by simp [hq], hqk⟩
    · rintro (h | ⟨q, hq, hqk⟩)
      · exact Or.inl (Or.inr h)
      · rcases List.mem_cons.mp hq with rfl | hq
        · exact Or.inl (Or.inl hqk.symm)
        · exact Or.inr ⟨q, hq, hqk⟩

theorem Count_insertAll_le (c : Catalog) (l : List (String × Asset)) :
    (insertAll c l).Count ≤ c.Count + l.length := by
  induction l generalizing c with
  | nil => simp [insertAll]
  | cons p rest ih =>
    rw [insertAll_cons]
    have h1 := ih (c.AddAsset p.1 p.2)
    have h2 : (c.AddAsset p.1 p.2).Count ≤ c.Count + 1 := by
      simp only [Catalog.Count, keys_AddAsset]
      exact Finset.card_insert_le _ _
    simp only [List.length_cons]
    omega

theorem keyConsistent_AddAsset_iff (c : Catalog) (id : String) (asset : Asset)
    (hc : c.keyConsistent) : (c.AddAsset id asset).keyConsistent ↔ id = asset.GetID := by
  constructor
  · intro h
    exact (h id asset (Get_AddAsset_self c id asset)).symm
  · intro hid k found hget
    by_cases hk : k = id
    · subst hk
      rw [Get_AddAsset_self] at hget
      cases hget
      exact hid.symm
    · rw [Get_AddAsset_of_ne c asset hk] at hget
      exact hc k found hget

theorem keyConsistent_insertAll (c : Catalog) (l : List (String × Asset))
    (hc : c.keyConsistent) (hl : ∀ p ∈ l, p.2.GetID = p.1) : (insertAll c l).keyConsistent := by
  induction l generalizing c with
  | nil => exact hc
  | cons p rest ih =>
    rw [insertAll_cons]
    refine ih _ ?_ (fun q hq => hl q (by simp [hq]))
    exact (keyConsistent_AddAsset_iff c p.1 p.2 hc).mpr (hl p (by simp)).symm

theorem seedInserts_ownID (data : SeedData) : ∀ p ∈ seedInserts data, p.2.GetID = p.1 := by
  intro p hp
  simp only [seedInserts, List.mem_append, List.mem_map] at hp
  rcases hp with ⟨x, -, rfl⟩ | ⟨x, -, rfl⟩ | ⟨x, -, rfl⟩ <;> rfl

theorem keyConsistent_LoadFromFile (c : Catalog) (file : SeedFile) (hc : c.keyConsistent) :
    (c.LoadFromFile file).2.keyConsistent := by
  cases file with
  | notExist => exact hc
  | openError err => exact hc
  | parseError err => exact hc
  | decoded data =>
    rw [LoadFromFile_decoded]
    exact keyConsistent_insertAll c _ hc (seedInserts_ownID data)

theorem keyConsistent_Initialize : Initialize.keyConsistent := by
  intro k asset hget
  simp [Initialize, Catalog.Get, Finmap.lookup_empty] at hget

theorem keyConsistent_foldl (steps : List Setup) (c : Catalog) (hc : c.keyConsistent)
    (hsteps : ∀ st ∈ steps, st.ownID) : (steps.foldl Setup.apply c).keyConsistent := by
  induction steps generalizing c with
  | nil => exact hc
  | cons st rest ih =>
    simp only [List.foldl_cons]
    refine ih _ ?_ (fun x hx => hsteps x (by simp [hx]))
    have hst := hsteps st (by simp)
    cases st with
    | LoadFromFile file => exact keyConsistent_LoadFromFile c file hc
    | AddAsset id asset => exact (keyConsistent_AddAsset_iff c id asset hc).mpr hst

/-- C27. The seed loading of `LoadFromFile` keeps the invariant that every
catalog key maps to an asset whose `GetID()` is that key, and
`AddAsset(id, asset)` keeps it exactly when `id = asset.GetID()`.  So in a
catalog built from `Initialize()` by `LoadFromFile` calls and such `AddAsset`
calls, the invariant holds, and every entry `ListFavorites` returns has an
asset whose `GetID()` is the entry's asset identifier. -/
theorem C27_catalog_key_consistency :
    (∀ (c : Catalog) (file : SeedFile), c.keyConsistent → (c.LoadFromFile file).2.keyConsistent) ∧
      (∀ (c : Catalog) (id : String) (asset : Asset), c.keyConsistent →
        ((c.AddAsset id asset).keyConsistent ↔ id = asset.GetID)) ∧
      ∀ steps : List Setup, (∀ st ∈ steps, st.ownID) →
        (build steps).keyConsistent ∧
        ∀ (s : MemoryStore) (userID : String) (out : List FavoriteWithAsset),
          (s.ListFavorites (build steps) userID).1 = (some out, none) →
          ∀ e ∈ out, e.Asset.GetID = e.AssetID := by
  refine ⟨keyConsistent_LoadFromFile, keyConsistent_AddAsset_iff, ?_⟩
  intro steps hsteps
  have hb : (build steps).keyConsistent :=
    keyConsistent_foldl steps Initialize keyConsistent_Initialize hsteps
  refine ⟨hb, ?_⟩
  intro s userID out hout e he
  rw [ListFavorites_fst] at hout
  simp only [Prod.mk.injEq, Option.some.injEq, and_true] at hout
  subst hout
  obtain ⟨f, -, hget, hrec⟩ := loop_assetID_resolves he
  have hid : f.AssetID = e.AssetID := by rw [← hrec]; rfl
  rw [hid] at hget
  exact hb e.AssetID e.Asset hget

/-- Witness of C27: a seed file is loaded and a chart is inserted under its
own identifier; and an insertion under another identifier breaks the invariant. -/
theorem C27_catalog_key_consistency_witness :
    (build sampleSteps).keyConsistent ∧
      ((Initialize.AddAsset "other" (Asset.chart sampleChartX)).keyConsistent ↔
        "other" = (Asset.chart sampleChartX).GetID) :=
  ⟨(C27_catalog_key_consistency.2.2 sampleSteps (by
      intro st hst
      rcases List.mem_cons.mp hst with rfl | hst
      · trivial
      · rcases List.mem_cons.mp hst with rfl | hst
        · rfl
        · cases hst)).1,
    C27_catalog_key_consistency.2.1 Initialize "other" (Asset.chart sampleChartX)
      keyConsistent_Initialize⟩

/-- C28. Loading a decoded seed file returns no error and gives the catalog
obtained by inserting every chart in list order, then every insight, then
every audience, each under its own `ID`.  So under an `ID` the last audience
with it is found; failing an audience, the last insight with it; failing
both, the last chart with it; and under an identifier of no seed record, what
was there before.  Every record's `ID` is a key afterwards, whatever
`Validate` says of the record, and `Count` afterwards is at most the count
before plus the number of seed records. -/
theorem C28_seed_load_order (c : Catalog) (data : SeedData) :
    (c.LoadFromFile (.decoded data)).1 = none ∧
      (c.LoadFromFile (.decoded data)).2 = insertAll c (seedInserts data) ∧
      (∀ (pre post : List Audience) (a : Audience), data.Audiences = pre ++ a :: post →
        (∀ b ∈ post, b.ID ≠ a.ID) →
        (c.LoadFromFile (.decoded data)).2.Get a.ID = some (Asset.audience a)) ∧
      (∀ (pre post : List Insight) (i : Insight), data.Insights = pre ++ i :: post →
        (∀ j ∈ post, j.ID ≠ i.ID) → (∀ a ∈ data.Audiences, a.ID ≠ i.ID) →
        (c.LoadFromFile (.decoded data)).2.Get i.ID = some (Asset.insight i)) ∧
      (∀ (pre post : List Chart) (ch : Chart), data.Charts = pre ++ ch :: post →
        (∀ x ∈ post, x.ID ≠ ch.ID) → (∀ i ∈ data.Insights, i.ID ≠ ch.ID) →
        (∀ a ∈ data.Audiences, a.ID ≠ ch.ID) →
        (c.LoadFromFile (.decoded data)).2.Get ch.ID = some (Asset.chart ch)) ∧
      (∀ k : String, (∀ ch ∈ data.Charts, ch.ID ≠ k) → (∀ i ∈ data.Insights, i.ID ≠ k) →
        (∀ a ∈ data.Audiences, a.ID ≠ k) →
        (c.LoadFromFile (.decoded data)).2.Get k = c.Get k) ∧
      ((∀ ch ∈ data.Charts, ch.ID ∈ (c.LoadFromFile (.decoded data)).2.assets.keys) ∧
        (∀ i ∈ data.Insights, i.ID ∈ (c.LoadFromFile (.decoded data)).2.assets.keys) ∧
        (∀ a ∈ data.Audiences, a.ID ∈ (c.LoadFromFile (.decoded data)).2.assets.keys)) ∧
      (c.LoadFromFile (.decoded data)).2.Count ≤
        c.Count + (data.Charts.length + data.Insights.length + data.Audiences.length) := by
  refine ⟨rfl, LoadFromFile_decoded c data, ?_, ?_, ?_, ?_, ⟨?_, ?_, ?_⟩, ?_⟩
  · intro pre post a hsplit hpost
    rw [LoadFromFile_decoded, seedInserts, hsplit, ← List.append_assoc, List.map_append,
      List.map_cons, ← List.append_assoc]
    apply Get_insertAll_last
    intro p hp
    obtain ⟨b, hb, rfl⟩ := List.mem_map.mp hp
    exact hpost b hb
  · intro pre post i hsplit hpost haud
    rw [LoadFromFile_decoded, seedInserts, hsplit, List.map_append, List.map_cons,
      List.append_assoc, List.cons_append, ← List.append_assoc]
    apply Get_insertAll_last
    intro p hp
    rcases List.mem_append.mp hp with h | h
    · obtain ⟨j, hj, rfl⟩ := List.mem_map.mp h
      exact hpost j hj
    · obtain ⟨a, ha, rfl⟩ := List.mem_map.mp h
      exact haud a ha
  · intro pre post ch hsplit hpost hins haud
    rw [LoadFromFile_decoded, seedInserts, hsplit, List.map_append, List.map_cons,
      List.append_assoc, List.cons_append]
    apply Get_insertAll_last
    intro p hp
    rcases List.mem_append.mp hp with h | h
    · obtain ⟨x, hx, rfl⟩ := List.mem_map.mp h
      exact hpost x hx
    · rcases List.mem_append.mp h with h | h
      · obtain ⟨i, hi, rfl⟩ := List.mem_map.mp h
        exact hins i hi
      · obtain ⟨a, ha, rfl⟩ := List.mem_map.mp h
        exact haud a ha
  · intro k hch hins haud
    rw [LoadFromFile_decoded]
    apply Get_insertAll_of_not_mem
    intro p hp
    simp only [seedInserts, List.mem_append, List.mem_map] at hp
    rcases hp with ⟨x, hx, rfl⟩ | ⟨x, hx, rfl⟩ | ⟨x, hx, rfl⟩
    · exact hch x hx
    · exact hins x hx
    · exact haud x hx
  · intro ch hch
    rw [LoadFromFile_decoded, mem_keys_insertAll]
    refine Or.inr ⟨(ch.ID, Asset.chart ch), ?_, rfl⟩
    simp only [seedInserts, List.mem_append, List.mem_map]
    exact Or.inl ⟨ch, hch, rfl⟩
  · intro i hi
    rw [LoadFromFile_decoded, mem_keys_insertAll]
    refine Or.inr ⟨(i.ID, Asset.insight i), ?_, rfl⟩
    simp only [seedInserts, List.mem_append, List.mem_map]
    exact Or.inr (Or.inl ⟨i, hi, rfl⟩)
  · intro a ha
    rw [LoadFromFile_decoded, mem_keys_insertAll]
    refine Or.inr ⟨(a.ID, Asset.audience a), ?_, rfl⟩
    simp only [seedInserts, List.mem_append, List.mem_map]
    exact Or.inr (Or.inr ⟨a, ha, rfl⟩)
  · rw [LoadFromFile_decoded]
    have h := Count_insertAll_le c (seedInserts data)
    have hlen : (seedInserts data).length =
        data.Charts.length + data.Insights.length + data.Audiences.length := by
      simp only [seedInserts, List.length_append, List.length_map]
      omega
    omega

/-- Witness of C28: the identifier `x` occurs as a chart, as an insight and as
two audiences, and the later audience is found; the chart `y`, which has no
name, is found under `y`; the entry under `old` is kept. -/
theorem C28_seed_load_order_witness :
    (sampleCatalogOld.LoadFromFile (.decoded sampleSeed)).2.Get "x" =
        some (Asset.audience sampleAudienceX) ∧
      (sampleChartY.Validate ≠ none ∧
        (sampleCatalogOld.LoadFromFile (.decoded sampleSeed)).2.Get "y" =
          some (Asset.chart sampleChartY)) ∧
      (sampleCatalogOld.LoadFromFile (.decoded sampleSeed)).2.Get "old" =
        sampleCatalogOld.Get "old" :=
  ⟨(C28_seed_load_order sampleCatalogOld sampleSeed).2.2.1 [sampleAudienceXEarlier] []
      sampleAudienceX rfl (by decide),
    ⟨by decide,
      (C28_seed_load_order sampleCatalogOld sampleSeed).2.2.2.2.1 [sampleChartX] []
        sampleChartY rfl (by decide) (by decide) (by decide)⟩,
    (C28_seed_load_order sampleCatalogOld sampleSeed).2.2.2.2.2.1 "old"
      (by decide) (by decide) (by decide)⟩

end catalog

namespace api

open models catalog store

/-- C21. For a decoded add request whose asset identifier is empty,
`addFavoriteHandler` responds 400 Bad Request and leaves the store as it was,
whatever the catalog holds, also when the catalog has an entry under the empty
identifier: the response is the same under any two catalogs. -/
theorem C21_add_handler_empty_asset_id (Global : Catalog) (s : MemoryStore) (now : Time)
    (userID : String) (req : AddFavoriteRequest) (hempty : req.AssetID = "") :
    addFavoriteHandler Global s now userID (some req) =
        (httpError "assetId is required" StatusBadRequest, s) ∧
      (addFavoriteHandler Global s now userID (some req)).1.Code = 400 ∧
      (addFavoriteHandler Global s now userID (some req)).2 = s ∧
      ∀ other : Catalog,
        addFavoriteHandler other s now userID (some req) =
          addFavoriteHandler Global s now userID (some req) := by
  have h : ∀ g : Catalog, addFavoriteHandler g s now userID (some req) =
      (httpError "assetId is required" StatusBadRequest, s) := by
    intro g
    simp only [addFavoriteHandler, hempty, if_true]
  rw [h Global]
  exact ⟨rfl, rfl, rfl, fun other => h other⟩

/-- Witness of C21: a request without asset identifier, while the catalog holds
an asset under the empty identifier. -/
theorem C21_add_handler_empty_asset_id_witness :
    emptyKeyCatalog.Get "" = some sampleChart ∧
      addFavoriteHandler emptyKeyCatalog sampleStore 9 "u1" (some ⟨"", "inline chart"⟩) =
        (httpError "assetId is required" StatusBadRequest, sampleStore) ∧
      (addFavoriteHandler emptyKeyCatalog sampleStore 9 "u1" (some ⟨"", "inline chart"⟩)).1.Code
        = 400 ∧
      (addFavoriteHandler emptyKeyCatalog sampleStore 9 "u1" (some ⟨"", "inline chart"⟩)).2 =
        sampleStore ∧
      ∀ other : Catalog,
        addFavoriteHandler other sampleStore 9 "u1" (some ⟨"", "inline chart"⟩) =
          addFavoriteHandler emptyKeyCatalog sampleStore 9 "u1" (some ⟨"", "inline chart"⟩) :=
  ⟨by decide,
    C21_add_handler_empty_asset_id emptyKeyCatalog sampleStore 9 "u1" ⟨"", "inline chart"⟩ rfl⟩

/-- C22, as the code behaves: the catalog holds the charts `a1`, named
"Unique Name", and `a2`, named "unique name"; the user has favorited `a1`;
the add request for `a2` is answered 201 Created, not 400, and the favorite
for `a2` is stored. -/
theorem C22_duplicate_name_is_accepted :
    (Option.map (fun a => a.GetName.data.map Char.toLower) (dupCatalog.Get "a1") =
        Option.map (fun a => a.GetName.data.map Char.toLower) (dupCatalog.Get "a2")) ∧
      dupStore.favorites "validation_user" = [⟨"a1", "first", 1⟩] ∧
      (addFavoriteHandler dupCatalog dupStore 2 "validation_user" (some ⟨"a2", "second"⟩)).1 =
        writeHeader StatusCreated ∧
      (addFavoriteHandler dupCatalog dupStore 2 "validation_user" (some ⟨"a2", "second"⟩)).1.Code
        = 201 ∧
      (addFavoriteHandler dupCatalog dupStore 2 "validation_user"
          (some ⟨"a2", "second"⟩)).2.favorites "validation_user" =
        [⟨"a1", "first", 1⟩, ⟨"a2", "second", 2⟩] := by
  decide

/-- C23. For a decoded edit request, `editFavoriteHandler` responds 404 Not
Found exactly when the user has no favorite for the asset, and then leaves the
store as it was; otherwise it responds 204 No Content and the description of
that favorite is replaced, the rest of the collection unchanged.  A user the
store has never seen gets 404, and the response and the store afterwards are
the same whatever catalog `catalog.Global` holds. -/
theorem C23_edit_handler_not_found (s : MemoryStore) (userID assetID : String)
    (req : EditFavoriteRequest) :
    ((editFavoriteHandler s userID assetID (some req)).1.Code = 404 ↔
        ∀ f ∈ s.favorites userID, f.AssetID ≠ assetID) ∧
      ((∀ f ∈ s.favorites userID, f.AssetID ≠ assetID) →
        editFavoriteHandler s userID assetID (some req) =
          (httpError "asset not found" StatusNotFound, s)) ∧
      ((∃ f ∈ s.favorites userID, f.AssetID = assetID) →
        (editFavoriteHandler s userID assetID (some req)).1 = writeHeader StatusNoContent ∧
        (editFavoriteHandler s userID assetID (some req)).1.Code = 204 ∧
        ∃ pre f post, s.favorites userID = pre ++ f :: post ∧ f.AssetID = assetID ∧
          (∀ g ∈ pre, g.AssetID ≠ assetID) ∧
          (editFavoriteHandler s userID assetID (some req)).2.favorites userID =
            pre ++ ⟨f.AssetID, req.Description, f.CreatedAt⟩ :: post) ∧
      (s.users.lookup userID = none →
        (editFavoriteHandler s userID assetID (some req)).1.Code = 404) ∧
      ∀ C1 C2 : Catalog,
        (Request.edit userID assetID (some req)).serve C1 s =
          (Request.edit userID assetID (some req)).serve C2 s := by
  have habsent : (∀ f ∈ s.favorites userID, f.AssetID ≠ assetID) →
      editFavoriteHandler s userID assetID (some req) =
        (httpError "asset not found" StatusNotFound, s) := by
    intro hno
    simp only [editFavoriteHandler,
      EditFavoriteDescription_of_absent s userID assetID req.Description hno]
    rfl
  have hfound : (∃ f ∈ s.favorites userID, f.AssetID = assetID) →
      ∃ pre f post, s.favorites userID = pre ++ f :: post ∧ f.AssetID = assetID ∧
        (∀ g ∈ pre, g.AssetID ≠ assetID) ∧
        editFavoriteHandler s userID assetID (some req) =
          (writeHeader StatusNoContent,
            MemoryStore.mk (s.users.insert userID
              (pre ++ ⟨f.AssetID, req.Description, f.CreatedAt⟩ :: post))) := by
    intro hex
    obtain ⟨i, hi⟩ := (findAsset_isSome_iff assetID _).mpr hex
    obtain ⟨pre, f, post, hsplit, hlen, hf, hpre⟩ := findAsset_some_split hi
    refine ⟨pre, f, post, hsplit, hf, hpre, ?_⟩
    simp only [editFavoriteHandler,
      EditFavoriteDescription_of_found s userID assetID req.Description hi]
    rw [hsplit, ← hlen, setDescription_split]
  refine ⟨?_, habsent, ?_, ?_, fun _ _ => rfl⟩
  · constructor
    · intro hcode f hf hfa
      obtain ⟨pre, g, post, -, -, -, hh⟩ := hfound ⟨f, hf, hfa⟩
      rw [hh] at hcode
      have hne : (204 : Nat) ≠ 404 := by decide
      exact hne hcode
    · intro hno
      rw [habsent hno]
      rfl
  · intro hex
    obtain ⟨pre, f, post, hsplit, hf, hpre, hh⟩ := hfound hex
    rw [hh]
    exact ⟨rfl, rfl, pre, f, post, hsplit, hf, hpre, favorites_insert_self s userID _⟩
  · intro hnone
    rw [habsent (by simp [MemoryStore.favorites, hnone])]
    rfl

/-- Witness of C23: `u2`, whom the store has never seen, edits `c1`, which
only `u1` has favorited; and `u1` edits it. -/
theorem C23_edit_handler_not_found_witness :
    editFavoriteHandler sampleStore "u2" "c1" (some ⟨"hacked"⟩) =
        (httpError "asset not found" StatusNotFound, sampleStore) ∧
      (editFavoriteHandler sampleStore "u1" "c1" (some ⟨"mine"⟩)).1.Code = 204 :=
  ⟨(C23_edit_handler_not_found sampleStore "u2" "c1" ⟨"hacked"⟩).2.1 (by decide),
    ((C23_edit_handler_not_found sampleStore "u1" "c1" ⟨"mine"⟩).2.2.1
      ⟨⟨"c1", "note", 5⟩, by decide, rfl⟩).2.1⟩

end api

namespace health

/-- C25. `version.Get` returns the value of `FAVORITES_API_VERSION` when the
variable is set to a string that is not empty, and the built-in `Version`,
"0.1", when it is unset or empty.  `Handler` always writes status 200 with the
status "ok" and the version `Get` returns, so "0.1" when the variable is unset
or empty. -/
theorem C25_version_reporting (env : String → Option String) :
    (∀ v : String, env "FAVORITES_API_VERSION" = some v → v ≠ "" → version.Get env = v) ∧
      (env "FAVORITES_API_VERSION" = none ∨ env "FAVORITES_API_VERSION" = some "" →
        version.Get env = "0.1") ∧
      version.Version = "0.1" ∧
      ((Handler env).Code = 200 ∧ (Handler env).Body.Status = "ok" ∧
        (Handler env).Body.Version = version.Get env) ∧
      (env "FAVORITES_API_VERSION" = none ∨ env "FAVORITES_API_VERSION" = some "" →
        (Handler env).Body.Version = "0.1") := by
  have hunset : env "FAVORITES_API_VERSION" = none ∨ env "FAVORITES_API_VERSION" = some "" →
      version.Get env = "0.1" := by
    rintro (h | h) <;> simp [version.Get, version.Getenv, h, version.Version]
  refine ⟨?_, hunset, rfl, ⟨rfl, rfl, rfl⟩, hunset⟩
  intro v hv hne
  simp [version.Get, version.Getenv, hv, hne]

/-- Witness of C25: the variable set to "2.0", unset, and set to the empty string. -/
theorem C25_version_reporting_witness :
    version.Get (version.envWith "2.0") = "2.0" ∧
      (Handler version.noEnv).Body.Version = "0.1" ∧
      (Handler (version.envWith "")).Body.Version = "0.1" :=
  ⟨(C25_version_reporting (version.envWith "2.0")).1 "2.0" rfl (by decide),
    (C25_version_reporting version.noEnv).2.2.2.2 (Or.inl rfl),
    (C25_version_reporting (version.envWith "")).2.2.2.2 (Or.inr rfl)⟩

end health
